import Mathlib

/-!
Shallow embedding of the percolation-server core (TypeScript) in Lean 4.

Source files embedded:
  src/database/schema.ts   — data model and store operations (lists stand in for
                             SQLite tables; a logical clock stands in for wall-clock
                             timestamps and generated uuids; records are prepended so
                             that list order equals the ORDER BY ... DESC of the store)
  src/percolator/optimizer.ts      — researchForHole / applyPatch / applyOptimization
  src/percolator/stress-tester.ts  — runTest and the six detectors
  src/percolator/hole-finder.ts    — analyze and the three analysis depths
  src/percolator/engine.ts         — percolate, runPercolationLoop, scoring

JavaScript numbers are modelled as Int (token accounting) and Rat (scores); both are
exact where the source only adds, subtracts and compares integers, and exact rational
arithmetic where the source computes scores.  Regular-expression vocabulary checks are
modelled as case-insensitive substring searches over the same word lists.
-/

set_option autoImplicit false

namespace Percolation

/-- Case-insensitive substring test: mirrors a JS regex alternation of literal words
with the i flag, or `content.toLowerCase().includes(w)`. -/
def containsSub (s pat : String) : Bool :=
  ((s.toLower).splitOn (pat.toLower)).length ≥ 2

/-- Content matches a regex alternation of literal words, case-insensitively. -/
def containsAny (s : String) (pats : List String) : Bool :=
  pats.any (containsSub s)

/-- Blueprint lifecycle states (schema.ts `BlueprintStatus`). -/
inductive BStatus
  | pending
  | percolating
  | completed
  | failed
  deriving DecidableEq, BEq, Repr

/-- Hole states (schema.ts `HoleStatus`); `open` is a Lean keyword, hence `open_`. -/
inductive HStatus
  | open_
  | patched
  | wont_fix
  deriving DecidableEq, BEq, Repr

/-- Hole severities (schema.ts `HoleSeverity`). -/
inductive Severity
  | low
  | medium
  | high
  | critical
  deriving DecidableEq, BEq, Repr

/-- Percolation depth presets (schema.ts `DepthLevel`). -/
inductive Depth
  | quick
  | standard
  | thorough
  | exhaustive
  deriving DecidableEq, BEq, Repr

/-- Hole-finder analysis depth (`'shallow' | 'moderate' | 'deep'`). -/
inductive ADepth
  | shallow
  | moderate
  | deep
  deriving DecidableEq, BEq, Repr

/-- schema.ts `Blueprint` (the unused scalar metadata columns `submitted_at`,
`source`, `metadata` are omitted; `completed_at` keeps the logical clock). -/
structure Blueprint where
  id : String
  original_content : String
  current_content : String
  status : BStatus
  depth : Depth
  budget_tokens : Int
  tokens_used : Int
  confidence_score : ℚ
  completed_at : Option Nat
  deriving DecidableEq, BEq, Repr

/-- schema.ts `Hole`. -/
structure Hole where
  id : String
  blueprint_id : String
  hole_type : String
  description : String
  severity : Severity
  status : HStatus
  location : Option String
  suggested_fix : Option String
  identified_at : Nat
  patched_at : Option Nat
  deriving DecidableEq, BEq, Repr

/-- schema.ts `StressTest` (`findings` is stored as the list of finding strings;
the source stores its JSON serialization, which is in bijection with the list). -/
structure StressTest where
  id : String
  blueprint_id : String
  test_type : String
  intensity : Nat
  passed : Bool
  findings : List String
  duration_ms : Nat
  run_at : Nat
  deriving DecidableEq, BEq, Repr

/-- schema.ts `Optimization`. -/
structure Optimization where
  id : String
  blueprint_id : String
  source : String
  description : String
  improvement_score : ℚ
  tokens_cost : Int
  applied_at : Nat
  deriving DecidableEq, BEq, Repr

/-- schema.ts `PercolationLog` entry (id and timestamp dropped: append-only audit). -/
structure LogEntry where
  blueprint_id : String
  action : String
  details : String
  deriving DecidableEq, BEq, Repr

/-- The Blueprint Store state: one list per SQLite table, plus a logical clock that
generates fresh ids and timestamps (uuidv4 / new Date() in the source).  New records
are prepended, so plain list order realizes the `ORDER BY <timestamp> DESC` used by
every list query of schema.ts. -/
structure DBState where
  blueprints : List Blueprint
  holes : List Hole
  stressTests : List StressTest
  optimizations : List Optimization
  logs : List LogEntry
  clock : Nat
  deriving DecidableEq, BEq, Repr

/-- Fresh record id drawn from the logical clock (models uuidv4). -/
def freshId (st : DBState) : String :=
  "gen-" ++ toString st.clock

/-- schema.ts `getBlueprint` (SELECT by primary key). -/
def getBlueprint (st : DBState) (id : String) : Option Blueprint :=
  st.blueprints.find? (fun b => b.id == id)

/-- schema.ts `updateBlueprintContent`:
`SET current_content = ?, tokens_used = tokens_used + ?` for the matching row. -/
def updateBlueprintContent (st : DBState) (id content : String) (tokensUsed : Int) :
    DBState :=
  { st with
    blueprints := st.blueprints.map fun b =>
      if b.id == id then
        { b with current_content := content, tokens_used := b.tokens_used + tokensUsed }
      else b }

/-- schema.ts `updateBlueprintStatus`: sets the status, COALESCEs the confidence,
and stamps `completed_at` exactly when the new status is completed or failed. -/
def updateBlueprintStatus (st : DBState) (id : String) (status : BStatus)
    (confidenceScore : Option ℚ) : DBState :=
  { st with
    blueprints := st.blueprints.map fun b =>
      if b.id == id then
        { b with
          status := status
          confidence_score := confidenceScore.getD b.confidence_score
          completed_at :=
            if status == .completed || status == .failed then some st.clock
            else b.completed_at }
      else b }

/-- schema.ts `createHole` (INSERT with status 'open'); returns the created row. -/
def createHole (st : DBState) (blueprintId holeType description : String)
    (severity : Severity) (location suggestedFix : Option String) :
    Hole × DBState :=
  let hole : Hole :=
    { id := freshId st
      blueprint_id := blueprintId
      hole_type := holeType
      description := description
      severity := severity
      status := .open_
      location := location
      suggested_fix := suggestedFix
      identified_at := st.clock
      patched_at := none }
  (hole, { st with holes := hole :: st.holes, clock := st.clock + 1 })

/-- schema.ts `getHole`. -/
def getHole (st : DBState) (id : String) : Option Hole :=
  st.holes.find? (fun h => h.id == id)

/-- schema.ts `updateHoleStatus`: sets status; `patched_at` is stamped for
'patched' and cleared otherwise. -/
def updateHoleStatus (st : DBState) (id : String) (status : HStatus) : DBState :=
  { st with
    holes := st.holes.map fun h =>
      if h.id == id then
        { h with
          status := status
          patched_at := if status == .patched then some st.clock else none }
      else h }

/-- schema.ts `getHolesForBlueprint` (optionally filtered by status,
ORDER BY identified_at DESC = prepend order). -/
def getHolesForBlueprint (st : DBState) (blueprintId : String)
    (status : Option HStatus) : List Hole :=
  st.holes.filter fun h =>
    h.blueprint_id == blueprintId &&
      (match status with
       | some s => h.status == s
       | none => true)

/-- schema.ts `countOpenHoles`. -/
def countOpenHoles (st : DBState) (blueprintId : String) : Nat :=
  (st.holes.filter fun h => h.blueprint_id == blueprintId && h.status == HStatus.open_).length

/-- schema.ts `createStressTest`; returns the created row. -/
def createStressTest (st : DBState) (blueprintId testType : String) (intensity : Nat)
    (passed : Bool) (findings : List String) (durationMs : Nat) :
    StressTest × DBState :=
  let rec0 : StressTest :=
    { id := freshId st
      blueprint_id := blueprintId
      test_type := testType
      intensity := intensity
      passed := passed
      findings := findings
      duration_ms := durationMs
      run_at := st.clock }
  (rec0, { st with stressTests := rec0 :: st.stressTests, clock := st.clock + 1 })

/-- schema.ts `getStressTestsForBlueprint` (ORDER BY run_at DESC = prepend order). -/
def getStressTestsForBlueprint (st : DBState) (blueprintId : String) :
    List StressTest :=
  st.stressTests.filter fun t => t.blueprint_id == blueprintId

/-- schema.ts `createOptimization`; returns the created row. -/
def createOptimization (st : DBState) (blueprintId source description : String)
    (improvementScore : ℚ) (tokensCost : Int) : Optimization × DBState :=
  let rec0 : Optimization :=
    { id := freshId st
      blueprint_id := blueprintId
      source := source
      description := description
      improvement_score := improvementScore
      tokens_cost := tokensCost
      applied_at := st.clock }
  (rec0, { st with optimizations := rec0 :: st.optimizations, clock := st.clock + 1 })

/-- schema.ts `getOptimizationsForBlueprint` (ORDER BY applied_at DESC). -/
def getOptimizationsForBlueprint (st : DBState) (blueprintId : String) :
    List Optimization :=
  st.optimizations.filter fun o => o.blueprint_id == blueprintId

/-- schema.ts `log`: appends an audit entry (details pre-serialized to a string). -/
def logDb (st : DBState) (blueprintId action details : String) : DBState :=
  { st with logs := ⟨blueprintId, action, details⟩ :: st.logs }

/-! Optimizer (src/percolator/optimizer.ts). -/

/-- optimizer.ts `estimateTokens`: `Math.ceil(text.length / 4)`. -/
def estimateTokens (text : String) : Nat :=
  (text.length + 3) / 4

/-- optimizer.ts `ResearchResult`. -/
structure ResearchResult where
  source : String
  description : String
  patch : String
  improvement_score : ℚ
  tokens_cost : Nat
  deriving DecidableEq, BEq, Repr

/-- The static one-template-per-category patch catalog of
optimizer.ts `getPatchesForHoleType` (template bodies kept verbatim,
newlines escaped). -/
def getPatchesForHoleType (holeType : String) : List (String × ℚ) :=
  if holeType == "missing_step" then
    [("\n## Verification Step\n\nAfter completing the main operation:\n1. Verify the expected outcome was achieved\n2. Check all postconditions\n3. Log the result for audit trail\n4. If verification fails, trigger error handling\n", 0.15)]
  else if holeType == "ambiguous_instruction" then
    [("\n## Clarification\n\nTo avoid ambiguity:\n- Use specific, measurable criteria\n- Define exact thresholds and limits\n- Provide concrete examples\n- Eliminate vague qualifiers\n", 0.10)]
  else if holeType == "edge_case_unhandled" then
    [("\n## Edge Case Handling\n\nHandle the following edge cases:\n1. **Empty input**: Return early with appropriate message\n2. **Null values**: Check for null before processing\n3. **Timeout**: Set maximum wait time and handle expiry\n4. **Network failure**: Implement retry with backoff\n", 0.18)]
  else if holeType == "security_risk" then
    [("\n## Security Hardening\n\nApply these security measures:\n1. **Input validation**: Validate all inputs against schema\n2. **Sanitization**: Escape special characters\n3. **Authentication**: Verify identity before action\n4. **Authorization**: Check permissions\n5. **Audit logging**: Log security-relevant events\n", 0.25)]
  else if holeType == "performance_issue" then
    [("\n## Performance Optimization\n\nImprove performance with:\n1. **Batching**: Process items in batches of 100\n2. **Caching**: Cache repeated lookups for 5 minutes\n3. **Pagination**: Limit results to 50 per page\n4. **Rate limiting**: Max 100 requests per minute\n", 0.15)]
  else if holeType == "dependency_missing" then
    [("\n## Prerequisites\n\nBefore starting, ensure:\n1. All dependencies are installed\n2. Configuration files are in place\n3. Required permissions are granted\n4. Environment variables are set\n\nInstallation:\n```\nnpm install required-package\n```\n", 0.12)]
  else if holeType == "inconsistency" then
    [("\n## Consistency Rules\n\nMaintain consistency by:\n1. Using consistent naming conventions\n2. Following established patterns\n3. Keeping terminology uniform\n4. Aligning with existing structure\n", 0.08)]
  else if holeType == "incomplete_validation" then
    [("\n## Validation Checklist\n\nBefore proceeding, validate:\n1. [ ] Input format is correct\n2. [ ] Required fields are present\n3. [ ] Values are within bounds\n4. [ ] Dependencies are available\n5. [ ] Permissions are sufficient\n", 0.14)]
  else []

/-- optimizer.ts `researchForHole`: catalog lookup keyed by `hole_type`; pure,
returns null when the category has no template.  (The unused `blueprintId`
parameter of the source is dropped.) -/
def researchForHole (hole : Hole) : Option ResearchResult :=
  match getPatchesForHoleType hole.hole_type with
  | [] => none
  | selectedPatch :: _ =>
    some
      { source := hole.hole_type ++ "_research"
        description := "Fix for " ++ hole.hole_type ++ ": " ++ hole.description.take 50
        patch := selectedPatch.1
        improvement_score := selectedPatch.2
        tokens_cost := estimateTokens selectedPatch.1 }

/-- optimizer.ts `applyPatch`: validates blueprint and hole exist and that the
hole belongs to the blueprint, then appends the patch behind a marker comment,
charges `estimateTokens(patch)`, marks the hole patched and logs.  The source
performs no hole-status check and no size or budget check.  A thrown `Error`
is modelled as `.error msg` (and then no mutation has happened: every throw
precedes the first store write). -/
def applyPatch (st : DBState) (blueprintId holeId patch : String) :
    Except String DBState :=
  match getBlueprint st blueprintId with
  | none => .error ("Blueprint not found: " ++ blueprintId)
  | some blueprint =>
    match getHole st holeId with
    | none => .error ("Hole not found: " ++ holeId)
    | some hole =>
      if hole.blueprint_id ≠ blueprintId then
        .error "Hole does not belong to this blueprint"
      else
        let patchMarker := "\n\n<!-- FIX: " ++ hole.hole_type ++ " -->\n"
        let newContent := blueprint.current_content ++ patchMarker ++ patch
        let tokensUsed := estimateTokens patch
        let st1 := updateBlueprintContent st blueprintId newContent (tokensUsed : Int)
        let st2 := updateHoleStatus st1 holeId .patched
        let st3 := logDb st2 blueprintId "OPTIMIZER_PATCH"
          ("hole_id=" ++ holeId ++ " hole_type=" ++ hole.hole_type ++
            " patch_length=" ++ toString patch.length ++
            " tokens_used=" ++ toString tokensUsed)
        .ok st3

/-- optimizer.ts `applyOptimization`: rejects (before any mutation) when the
token cost exceeds the remaining budget; otherwise appends the content behind
a marker, charges the cost, records an Optimization row and logs.  Returns the
created optimization id. -/
def applyOptimization (st : DBState) (blueprintId source description content : String) :
    Except String (DBState × String) :=
  match getBlueprint st blueprintId with
  | none => .error ("Blueprint not found: " ++ blueprintId)
  | some blueprint =>
    let tokensUsed := estimateTokens content
    let remainingBudget := blueprint.budget_tokens - blueprint.tokens_used
    if (tokensUsed : Int) > remainingBudget then
      .error ("Insufficient budget: need " ++ toString tokensUsed ++ ", have " ++
        toString remainingBudget)
    else
      let optMarker := "\n\n<!-- OPTIMIZATION: " ++ source ++ " -->\n"
      let newContent := blueprint.current_content ++ optMarker ++ content
      let st1 := updateBlueprintContent st blueprintId newContent (tokensUsed : Int)
      let (optimization, st2) :=
        createOptimization st1 blueprintId source description 0.1 (tokensUsed : Int)
      let st3 := logDb st2 blueprintId "OPTIMIZATION_APPLIED"
        ("optimization_id=" ++ optimization.id ++ " source=" ++ source ++
          " tokens_used=" ++ toString tokensUsed)
      .ok (st3, optimization.id)

/-! Stress tester (src/percolator/stress-tester.ts). -/

/-- stress-tester.ts `HoleDetection`. -/
structure HoleDetection where
  type : String
  description : String
  severity : Severity
  deriving DecidableEq, BEq, Repr

/-- The `{ passed, findings, holes }` record each detector returns, together with
the source's running `issues` counter. -/
structure DetectorOut where
  passed : Bool
  findings : List String
  holes : List HoleDetection
  deriving DecidableEq, BEq, Repr

/-- stress-tester.ts `StressTestRunResult`. -/
structure StressTestRunResult where
  testId : String
  passed : Bool
  findings : List String
  holesFound : Nat
  durationMs : Nat
  deriving DecidableEq, BEq, Repr

/-- One detector condition: a finding is pushed whenever `triggered`, and a hole
(counted in `issues`) is pushed when additionally `escalate` holds — the shape of
every `if (...) \x7b findings.push(...); if (intensity >= g) \x7b holes.push(...);
issues++; \x7d \x7d` block of stress-tester.ts. -/
def condStep (acc : List String × List HoleDetection × Nat)
    (triggered escalate : Bool) (finding : String) (hole : HoleDetection) :
    List String × List HoleDetection × Nat :=
  if triggered then
    (acc.1 ++ [finding],
     if escalate then acc.2.1 ++ [hole] else acc.2.1,
     if escalate then acc.2.2 + 1 else acc.2.2)
  else acc

/-- stress-tester.ts `testEdgeCases`. -/
def testEdgeCases (content : String) (intensity : Nat) : DetectorOut :=
  let acc : List String × List HoleDetection × Nat := ([], [], 0)
  let acc := condStep acc
    (!containsAny content ["null", "empty", "undefined", "none", "missing"])
    (intensity ≥ 5)
    "No handling for null/empty values detected"
    ⟨"edge_case_unhandled", "Blueprint does not handle null/empty input cases", .medium⟩
  let acc := condStep acc
    (!containsAny content ["error", "exception", "fail", "catch", "handle"])
    (intensity ≥ 4)
    "No error handling patterns detected"
    ⟨"edge_case_unhandled", "Blueprint lacks error handling", .high⟩
  let acc := condStep acc
    (containsAny content ["wait", "async", "fetch", "request"] &&
      !containsSub content "timeout")
    (intensity ≥ 6)
    "Async operations without timeout handling"
    ⟨"edge_case_unhandled", "Async operations lack timeout handling", .medium⟩
  ⟨acc.2.2 == 0, acc.1, acc.2.1⟩

/-- stress-tester.ts `testAdversarial` (the injection condition is ungated:
it escalates at every intensity). -/
def testAdversarial (content : String) (intensity : Nat) : DetectorOut :=
  let acc : List String × List HoleDetection × Nat := ([], [], 0)
  let acc := condStep acc
    (containsAny content ["exec", "eval", "shell", "command", "sql", "query"])
    (!containsAny content ["sanitize", "escape", "parameterize", "validate"])
    "Potential injection vulnerability patterns detected"
    ⟨"security_risk", "Potential injection vulnerability without sanitization", .critical⟩
  let acc := condStep acc
    (!containsAny content ["validate", "verify", "check", "schema", "type"])
    (intensity ≥ 5)
    "No input validation detected"
    ⟨"incomplete_validation", "Blueprint lacks input validation", .high⟩
  let acc := condStep acc
    (containsAny content ["user", "access", "permission", "role"] &&
      !containsAny content ["authorize", "auth", "permission check"])
    (intensity ≥ 7)
    "User/access concepts without explicit authorization"
    ⟨"security_risk", "Missing authorization checks", .high⟩
  ⟨acc.2.2 == 0, acc.1, acc.2.1⟩

/-- stress-tester.ts `testLoad`. -/
def testLoad (content : String) (intensity : Nat) : DetectorOut :=
  let acc : List String × List HoleDetection × Nat := ([], [], 0)
  let acc := condStep acc
    (!containsAny content ["batch", "chunk", "page", "limit"])
    (intensity ≥ 6)
    "No batching or pagination strategy"
    ⟨"performance_issue", "Blueprint lacks batching for large datasets", .medium⟩
  let acc := condStep acc
    (containsAny content ["api", "request", "call"] &&
      !containsAny content ["rate", "limit", "throttle"])
    (intensity ≥ 7)
    "API calls without rate limiting"
    ⟨"performance_issue", "API interactions lack rate limiting", .medium⟩
  let acc := condStep acc
    (containsAny content ["fetch", "get", "query", "load"] &&
      !containsAny content ["cache", "memo", "store"])
    (intensity ≥ 8)
    "Data fetching without caching strategy"
    ⟨"performance_issue", "No caching strategy for data fetching", .low⟩
  ⟨acc.2.2 == 0, acc.1, acc.2.1⟩

/-- stress-tester.ts `testBoundary`. -/
def testBoundary (content : String) (intensity : Nat) : DetectorOut :=
  let acc : List String × List HoleDetection × Nat := ([], [], 0)
  let acc := condStep acc
    (!containsAny content ["min", "max", "limit", "bound", "range"])
    (intensity ≥ 5)
    "No boundary constraints defined"
    ⟨"incomplete_validation", "Blueprint lacks boundary definitions", .medium⟩
  let acc := condStep acc
    (containsAny content ["file", "upload", "input", "data"] &&
      !containsAny content ["size", "length", "limit"])
    (intensity ≥ 6)
    "Data handling without size limits"
    ⟨"incomplete_validation", "No size limits for data handling", .medium⟩
  ⟨acc.2.2 == 0, acc.1, acc.2.1⟩

/-- stress-tester.ts `testSecurity`, first loop: one condition per sensitive term,
ungated (escalates whenever the protection vocabulary is absent). -/
def securityTermSteps (content : String) (terms : List String)
    (acc : List String × List HoleDetection × Nat) :
    List String × List HoleDetection × Nat :=
  terms.foldl
    (fun acc pattern =>
      condStep acc
        (((content.toLower).splitOn pattern).length ≥ 2)
        (!containsAny content ["encrypt", "hash", "secure", "protect", "mask"])
        ("Sensitive data type detected: " ++ pattern)
        ⟨"security_risk", "Sensitive data (" ++ pattern ++ ") without security measures",
          .critical⟩)
    acc

/-- stress-tester.ts `testSecurity`. -/
def testSecurity (content : String) (_intensity : Nat) : DetectorOut :=
  let acc : List String × List HoleDetection × Nat := ([], [], 0)
  let acc := securityTermSteps content
    ["password", "secret", "token", "key", "credential", "api_key"] acc
  let acc := condStep acc
    (containsAny content ["log", "print", "debug", "trace"] &&
      containsAny content ["password", "secret", "token"])
    true
    "Potential sensitive data in logs"
    ⟨"security_risk", "Sensitive data may be logged", .high⟩
  ⟨acc.2.2 == 0, acc.1, acc.2.1⟩

/-- A line matching `/^\s*\d+[\.\)]/`: optional whitespace, digits, then a dot or
closing parenthesis. -/
def isStepLine (line : String) : Bool :=
  let rest := line.data.dropWhile Char.isWhitespace
  let ds := rest.takeWhile Char.isDigit
  let after := rest.drop ds.length
  decide (ds ≠ []) &&
    (match after with
     | '.' :: _ => true
     | ')' :: _ => true
     | _ => false)

/-- `parseInt(line.match(/\d+/)![0], 10)`: the first run of digits in the line. -/
def firstNumber (line : String) : Nat :=
  (String.mk ((line.data.dropWhile (fun c => !c.isDigit)).takeWhile Char.isDigit)).toNat?.getD 0

/-- First adjacent pair in the step-number list that is not consecutive —
the source scans `numbers` and breaks at the first inconsistency. -/
def firstGap : List Nat → Option (Nat × Nat)
  | a :: b :: rest => if b ≠ a + 1 then some (a, b) else firstGap (b :: rest)
  | _ => none

/-- stress-tester.ts `testConsistency`. -/
def testConsistency (content : String) (intensity : Nat) : DetectorOut :=
  let acc : List String × List HoleDetection × Nat := ([], [], 0)
  let steps := (content.splitOn "\n").filter isStepLine
  let numbers := steps.map firstNumber
  let acc :=
    if steps.length > 1 then
      match firstGap numbers with
      | some g =>
        condStep acc true (intensity ≥ 4)
          ("Step numbering inconsistency: " ++ toString g.1 ++ " to " ++ toString g.2)
          ⟨"inconsistency", "Step numbering is inconsistent", .low⟩
      | none => acc
    else acc
  let contradictions : List (String × String) :=
    [("always", "never"), ("required", "optional"), ("must", "should not")]
  let acc := contradictions.foldl
    (fun acc p =>
      condStep acc
        ((((content.toLower).splitOn p.1).length ≥ 2 : Bool) &&
          ((((content.toLower).splitOn p.2).length ≥ 2 : Bool)))
        (intensity ≥ 6)
        ("Potentially contradicting terms: " ++ p.1 ++ " and " ++ p.2)
        ⟨"ambiguous_instruction", "Contradicting language: " ++ p.1 ++ " vs " ++ p.2,
          .medium⟩)
    acc
  ⟨acc.2.2 == 0, acc.1, acc.2.1⟩

/-- stress-tester.ts `executeTest`: dispatch on the six categories; an unknown
category falls through to `\x7b passed: true, findings: [], holes: [] \x7d`. -/
def executeTest (content testType : String) (intensity : Nat) : DetectorOut :=
  if testType == "edge_case" then testEdgeCases content intensity
  else if testType == "adversarial" then testAdversarial content intensity
  else if testType == "load" then testLoad content intensity
  else if testType == "boundary" then testBoundary content intensity
  else if testType == "security" then testSecurity content intensity
  else if testType == "consistency" then testConsistency content intensity
  else ⟨true, [], []⟩

/-- The hole-creating loop of stress-tester.ts `runTest`: persists one Hole per
detection and counts them (`holesCreated`). -/
def createHolesFromDetections (blueprintId : String) :
    List HoleDetection → DBState → Nat → DBState × Nat
  | [], st, n => (st, n)
  | d :: rest, st, n =>
    let (_, st') := createHole st blueprintId d.type d.description d.severity none none
    createHolesFromDetections blueprintId rest st' (n + 1)

/-- stress-tester.ts `runTest`: loads the blueprint (throws if absent), runs the
detector, persists exactly one StressTest row, then persists one Hole per
detection.  Wall-clock duration is modelled as 0. -/
def runTest (st : DBState) (blueprintId testType : String) (intensity : Nat) :
    Except String (DBState × StressTestRunResult) :=
  match getBlueprint st blueprintId with
  | none => .error ("Blueprint not found: " ++ blueprintId)
  | some blueprint =>
    let result := executeTest blueprint.current_content testType intensity
    let durationMs := 0
    let (stressTest, st1) :=
      createStressTest st blueprintId testType intensity result.passed result.findings
        durationMs
    let (st2, holesCreated) := createHolesFromDetections blueprintId result.holes st1 0
    .ok (st2,
      { testId := stressTest.id
        passed := result.passed
        findings := result.findings
        holesFound := holesCreated
        durationMs := durationMs })

/-! Hole finder (src/percolator/hole-finder.ts).  The regex scanners below model
the source patterns as left-to-right, non-overlapping, case-insensitive scans;
per spec sections 1 and 9 the literal regular expressions are an implementation
detail and any equivalent analyzer is acceptable. -/

/-- Case-insensitive "the char list starts with this pattern". -/
def startsWithCI : List Char → List Char → Bool
  | _, [] => true
  | [], _ :: _ => false
  | c :: cs, p :: ps => (c.toLower == p.toLower) && startsWithCI cs ps

/-- The four markers of `/(TODO|FIXME|XXX|HACK)[:)]?\s*([^\n]+)/gi`. -/
def todoMarkers : List String := ["TODO", "FIXME", "XXX", "HACK"]

/-- Try the TODO-marker pattern at the head of the list; on success return
(marker as matched, captured text, whole match, remainder after the match). -/
def tryTodoAt (l : List Char) : Option (String × String × String × List Char) :=
  match todoMarkers.find? (fun m => startsWithCI l m.data) with
  | none => none
  | some m =>
    let markerChars := l.take m.length
    let afterMarker := l.drop m.length
    let pr :=
      match afterMarker with
      | ':' :: r => ([':'], r)
      | ')' :: r => ([')'], r)
      | r => (([] : List Char), r)
    let ws := pr.2.takeWhile Char.isWhitespace
    let rest := pr.2.drop ws.length
    if rest ≠ [] then
      let capture := rest.takeWhile (fun c => c ≠ '\n')
      some (String.mk markerChars, String.mk capture,
        String.mk (markerChars ++ pr.1 ++ ws ++ capture), rest.drop capture.length)
    else
      -- only whitespace remains: `\s*` backtracks so `[^\n]+` can take the final
      -- non-newline whitespace character, if there is one
      let revWs := ws.reverse
      let trailNl := revWs.takeWhile (fun c => c == '\n')
      match revWs.drop trailNl.length with
      | [] => none
      | c :: before =>
        some (String.mk markerChars, String.mk [c],
          String.mk (markerChars ++ pr.1 ++ (before.reverse ++ [c])), trailNl.reverse)

/-- The scan loop of `content.matchAll(...)`: fuel-bounded left-to-right scan. -/
def scanTodosGo : Nat → List Char → List (String × String × String)
  | 0, _ => []
  | _, [] => []
  | fuel + 1, c :: cs =>
    match tryTodoAt (c :: cs) with
    | some r => (r.1, r.2.1, r.2.2.1) :: scanTodosGo fuel r.2.2.2
    | none => scanTodosGo fuel cs

/-- All matches of the TODO-marker pattern in the content. -/
def scanTodos (content : String) : List (String × String × String) :=
  scanTodosGo content.length content.data

/-- Try `/##\s+[^\n]+\n\s*\n(?=##|$)/` at the head of the list (greedy path);
returns the matched text. -/
def emptySectionAt (l : List Char) : Option (List Char) :=
  match l with
  | '#' :: '#' :: r1 =>
    let w := r1.takeWhile Char.isWhitespace
    if w = [] then none
    else
      let r2 := r1.drop w.length
      let text := r2.takeWhile (fun c => c ≠ '\n')
      if text = [] then none
      else
        match r2.drop text.length with
        | '\n' :: r4 =>
          let run := r4.takeWhile Char.isWhitespace
          let r5 := r4.drop run.length
          match run.getLast? with
          | some '\n' =>
            if r5 = [] || startsWithCI r5 ['#', '#'] then
              some ('#' :: '#' :: (w ++ text ++ '\n' :: run))
            else none
          | _ => none
        | _ => none
  | _ => none

/-- Fuel-bounded scan for the first empty-section match (`content.match(...)`,
no g flag: first match only). -/
def emptySectionFindGo : Nat → List Char → Option (List Char)
  | 0, _ => none
  | _, [] => none
  | fuel + 1, c :: cs =>
    match emptySectionAt (c :: cs) with
    | some m => some m
    | none => emptySectionFindGo fuel cs

/-- First match of the empty-section pattern, if any. -/
def emptySectionFind (content : String) : Option (List Char) :=
  emptySectionFindGo content.length content.data

/-- Try `/requires?\s+(\w+)/i` at the head of the list (true iff it matches). -/
def tryRequireAt (l : List Char) : Bool :=
  startsWithCI l "require".data &&
    (let after := l.drop 7
     let after2 :=
       match after with
       | 's' :: r => r
       | 'S' :: r => r
       | r => r
     let ws := after2.takeWhile Char.isWhitespace
     decide (ws ≠ []) &&
       (match after2.drop ws.length with
        | c :: _ => c.isAlphanum || c == '_'
        | [] => false))

/-- Fuel-bounded existence scan for the requires-pattern. -/
def hasRequireDepGo : Nat → List Char → Bool
  | 0, _ => false
  | _, [] => false
  | fuel + 1, c :: cs => tryRequireAt (c :: cs) || hasRequireDepGo fuel cs

/-- `content.match(/requires?\s+(\w+)/gi)` produced at least one match. -/
def hasRequireDep (content : String) : Bool :=
  hasRequireDepGo content.length content.data

/-- Generic fuel-bounded, non-overlapping, left-to-right match counter;
`tryAt` returns the number of characters a match at the head would consume. -/
def countScanGo (tryAt : List Char → Option Nat) : Nat → List Char → Nat
  | 0, _ => 0
  | _, [] => 0
  | fuel + 1, c :: cs =>
    match tryAt (c :: cs) with
    | some k => 1 + countScanGo tryAt fuel ((c :: cs).drop k)
    | none => countScanGo tryAt fuel cs

/-- Count matches of an alternation of literal words (gi flags). -/
def countMatchesCI (words : List String) (s : String) : Nat :=
  countScanGo
    (fun l => (words.find? (fun w => startsWithCI l w.data)).map (·.length))
    s.length s.data

/-- Try `/if\s+|when\s+|in case/i` at the head of the list; returns the
consumed length. -/
def tryCondAt (l : List Char) : Option Nat :=
  let wsAfter : Nat → Option Nat := fun n =>
    let ws := (l.drop n).takeWhile Char.isWhitespace
    if ws = [] then none else some (n + ws.length)
  if startsWithCI l "if".data then
    match wsAfter 2 with
    | some k => some k
    | none =>
      if startsWithCI l "when".data then wsAfter 4
      else if startsWithCI l "in case".data then some 7 else none
  else if startsWithCI l "when".data then
    match wsAfter 4 with
    | some k => some k
    | none => if startsWithCI l "in case".data then some 7 else none
  else if startsWithCI l "in case".data then some 7
  else none

/-- Count matches of `/if\s+|when\s+|in case/gi`. -/
def countCond (s : String) : Nat :=
  countScanGo tryCondAt s.length s.data

/-- hole-finder.ts `FoundHole`. -/
structure FoundHole where
  id : String
  type : String
  description : String
  severity : Severity
  location : Option String
  suggestedFix : Option String
  deriving DecidableEq, BEq, Repr

/-- hole-finder.ts `toFoundHole`. -/
def toFoundHole (h : Hole) : FoundHole :=
  ⟨h.id, h.hole_type, h.description, h.severity, h.location, h.suggested_fix⟩

/-- Persist one found hole and accumulate it (the `createHole` + `push` pair
every hole-finder check performs). -/
def pushHole (st : DBState) (acc : List FoundHole) (blueprintId holeType
    description : String) (severity : Severity)
    (location suggestedFix : Option String) : DBState × List FoundHole :=
  let (hole, st') := createHole st blueprintId holeType description severity
    location suggestedFix
  (st', acc ++ [toFoundHole hole])

/-- hole-finder.ts `shallowAnalysis`: TODO/FIXME/XXX/HACK markers and one
empty-section check. -/
def shallowAnalysis (st : DBState) (content blueprintId : String) :
    DBState × List FoundHole :=
  let p := (scanTodos content).foldl
    (fun (p : DBState × List FoundHole) m =>
      pushHole p.1 p.2 blueprintId "incomplete_validation"
        ("Unresolved " ++ m.1 ++ ": " ++ m.2.1.take 100)
        .high
        (some ("Line containing: \"" ++ m.2.2.take 40 ++ "...\""))
        (some ("Resolve the " ++ m.1 ++ " item")))
    (st, [])
  match emptySectionFind content with
  | some matched =>
    pushHole p.1 p.2 blueprintId "missing_step"
      "Empty section detected in blueprint" .medium
      (some ((String.mk matched).take 50))
      (some "Add content to the empty section")
  | none => p

/-- The vague-term list of hole-finder.ts `moderateAnalysis`. -/
def vagueTerms : List (String × Severity) :=
  [("somehow", .low), ("maybe", .low), ("probably", .low), ("might", .low),
   ("could be", .low), ("etc", .medium), ("and so on", .medium)]

/-- hole-finder.ts `moderateAnalysis`: vague language, dependencies without
setup vocabulary, conditionals outnumbering alternatives 2:1. -/
def moderateAnalysis (st : DBState) (content blueprintId : String) :
    DBState × List FoundHole :=
  let p := vagueTerms.foldl
    (fun (p : DBState × List FoundHole) t =>
      if ((content.toLower).splitOn t.1).length ≥ 2 then
        pushHole p.1 p.2 blueprintId "ambiguous_instruction"
          ("Vague language: \"" ++ t.1 ++ "\"") t.2 none
          (some ("Replace \"" ++ t.1 ++ "\" with specific, concrete language"))
      else p)
    (st, [])
  let p :=
    if hasRequireDep content &&
        !containsAny content ["install", "setup", "configure", "prerequisite"] then
      pushHole p.1 p.2 blueprintId "dependency_missing"
        "Dependencies mentioned without setup instructions" .medium none
        (some "Add a Prerequisites section with setup instructions")
    else p
  if countCond content >
      2 * countMatchesCI ["else", "otherwise", "alternative", "fallback"] content then
    pushHole p.1 p.2 blueprintId "edge_case_unhandled"
      "Conditionals without alternative paths" .medium none
      (some "Add else/otherwise clauses for conditional logic")
  else p

/-- hole-finder.ts `deepAnalysis`: rollback, verification ratio
(`verifications < actions / 3` over JS floats is the exact rational comparison
`3 * verifications < actions`), logging, retry and timeout vocabulary checks. -/
def deepAnalysis (st : DBState) (content blueprintId : String) :
    DBState × List FoundHole :=
  let destructiveOps :=
    countMatchesCI ["delete", "remove", "update", "modify", "overwrite"] content
  let rollbackOps :=
    countMatchesCI ["rollback", "undo", "revert", "backup", "restore"] content
  let p : DBState × List FoundHole :=
    if destructiveOps > 2 && rollbackOps == 0 then
      pushHole st [] blueprintId "missing_step"
        "Destructive operations without rollback capability" .high none
        (some "Add backup and rollback procedures for destructive operations")
    else (st, [])
  let actions := countMatchesCI ["create", "update", "delete", "modify", "write"] content
  let verifications :=
    countMatchesCI ["verify", "confirm", "check", "validate", "assert"] content
  let p :=
    if actions > 3 && 3 * verifications < actions then
      pushHole p.1 p.2 blueprintId "incomplete_validation"
        "Insufficient verification for actions taken" .medium none
        (some "Add verification steps after significant actions")
    else p
  let p :=
    if content.length > 1000 &&
        !containsAny content ["log", "trace", "record", "audit", "monitor"] then
      pushHole p.1 p.2 blueprintId "missing_step"
        "No logging or audit trail in complex blueprint" .low none
        (some "Add logging for debugging and monitoring")
    else p
  let p :=
    if containsAny content ["request", "fetch", "api", "call", "query"] &&
        !containsAny content ["retry", "attempt", "backoff"] then
      pushHole p.1 p.2 blueprintId "edge_case_unhandled"
        "External calls without retry logic" .medium none
        (some "Add retry logic with exponential backoff for external calls")
    else p
  if containsAny content ["async", "await", "promise", "callback"] &&
      !containsAny content ["timeout", "deadline", "cancel"] then
    pushHole p.1 p.2 blueprintId "edge_case_unhandled"
      "Async operations without timeout handling" .medium none
      (some "Add timeout handling for async operations")
  else p

/-- hole-finder.ts `analyze`: loads the blueprint (throws if absent), then runs
the depth-graded battery; each depth is a superset of the previous.  Every
found hole has already been persisted by the time it is returned. -/
def analyze (st : DBState) (blueprintId : String) (depth : ADepth) :
    Except String (DBState × List FoundHole) :=
  match getBlueprint st blueprintId with
  | none => .error ("Blueprint not found: " ++ blueprintId)
  | some blueprint =>
    let content := blueprint.current_content
    match depth with
    | .shallow => .ok (shallowAnalysis st content blueprintId)
    | .moderate =>
      let p1 := shallowAnalysis st content blueprintId
      let p2 := moderateAnalysis p1.1 content blueprintId
      .ok (p2.1, p1.2 ++ p2.2)
    | .deep =>
      let p1 := shallowAnalysis st content blueprintId
      let p2 := moderateAnalysis p1.1 content blueprintId
      let p3 := deepAnalysis p2.1 content blueprintId
      .ok (p3.1, p1.2 ++ p2.2 ++ p3.2)

/-! Percolation engine (src/percolator/engine.ts). -/

/-- One depth preset of `PercolatorConfig.depths`. -/
structure DepthConfig where
  budget : Int
  stressTests : Nat
  researchQueries : Int
  deriving DecidableEq, BEq, Repr

/-- types.ts `PercolatorConfig`.  `timeoutMs` is declared in types.ts (with a
default of five minutes documented there) but the engine never initializes or
reads it. -/
structure PercolatorConfig where
  quick : DepthConfig
  standard : DepthConfig
  thorough : DepthConfig
  exhaustive : DepthConfig
  defaultDepth : Depth
  maxConcurrentPercolations : Nat
  timeoutMs : Int
  deriving DecidableEq, BEq, Repr

/-- The engine constructor's default configuration. -/
def defaultConfig : PercolatorConfig :=
  { quick := ⟨1000, 3, 1⟩
    standard := ⟨5000, 10, 3⟩
    thorough := ⟨20000, 25, 10⟩
    exhaustive := ⟨100000, 100, -1⟩
    defaultDepth := .standard
    maxConcurrentPercolations := 5
    timeoutMs := 300000 }

/-- `this.config.depths[blueprint.depth]`. -/
def depthConfigFor (cfg : PercolatorConfig) : Depth → DepthConfig
  | .quick => cfg.quick
  | .standard => cfg.standard
  | .thorough => cfg.thorough
  | .exhaustive => cfg.exhaustive

/-- `Object.values(StressTestTypes)` in declaration order. -/
def stressTestTypes : List String :=
  ["edge_case", "adversarial", "load", "boundary", "security", "consistency"]

/-- engine.ts `selectTestType`: three-phase schedule.  The JS float expression
`Math.floor((iteration / maxIterations) * 3)` is the rational floor
`3 * iteration / maxIterations`. -/
def selectTestType (iteration maxIterations : Nat) : String :=
  let phase := 3 * iteration / maxIterations
  match phase with
  | 0 => stressTestTypes.getD (iteration % 3) ""
  | 1 => stressTestTypes.getD (3 + iteration % 3) ""
  | _ => stressTestTypes.getD (iteration % stressTestTypes.length) ""

/-- engine.ts `calculateIntensity`:
`Math.min(10, Math.max(1, Math.floor(progress * 8) + 3))`. -/
def calculateIntensity (iteration maxIterations : Nat) : Nat :=
  min 10 (max 1 (8 * iteration / maxIterations + 3))

/-- The analysis-depth selection inside the loop: shallow for the first third of
iterations, moderate for the middle third, deep for the rest (exact rational
reading of the JS float comparisons). -/
def analysisDepthFor (iteration maxIterations : Nat) : ADepth :=
  if 3 * iteration < maxIterations then .shallow
  else if 3 * iteration < 2 * maxIterations then .moderate
  else .deep

/-- engine.ts `calculateConfidence`: pure scoring over the blueprint's full
hole/test/optimization history, clamped to [0,1].  (The source also fetches the
blueprint row but never reads it.) -/
def calculateConfidence (st : DBState) (blueprintId : String) : ℚ :=
  let holes := getHolesForBlueprint st blueprintId none
  let stressTests := getStressTestsForBlueprint st blueprintId
  let optimizations := getOptimizationsForBlueprint st blueprintId
  let score : ℚ := 0.5
  let openHoles := (holes.filter (fun h => h.status == HStatus.open_)).length
  let patchedHoles := (holes.filter (fun h => h.status == HStatus.patched)).length
  let score :=
    if holes.length > 0 then
      let patchRate : ℚ := (patchedHoles : ℚ) / (holes.length : ℚ)
      score + (patchRate * 0.2) - ((openHoles : ℚ) * 0.05)
    else score
  let score :=
    if stressTests.length > 0 then
      let passRate : ℚ :=
        ((stressTests.filter (fun t => t.passed)).length : ℚ) / (stressTests.length : ℚ)
      score + passRate * 0.25
    else score
  let optScore : ℚ := min 0.15 ((optimizations.length : ℚ) * 0.03)
  let score := score + optScore
  max 0 (min 1 score)

/-- An engine lifecycle event (`PercolationEvent`; the wall-clock timestamp is
dropped, payload values are stringified). -/
structure PEvent where
  type : String
  blueprintId : String
  data : List (String × String)
  deriving DecidableEq, BEq, Repr

/-- Printable form of a rational score for event payloads. -/
def ratStr (q : ℚ) : String :=
  toString q.num ++ "/" ++ toString q.den

/-- Printable status names, as in the source's error message interpolation. -/
def statusStr : BStatus → String
  | .pending => "pending"
  | .percolating => "percolating"
  | .completed => "completed"
  | .failed => "failed"

/-- Printable depth names. -/
def depthStr : Depth → String
  | .quick => "quick"
  | .standard => "standard"
  | .thorough => "thorough"
  | .exhaustive => "exhaustive"

/-- Printable severity names. -/
def sevStr : Severity → String
  | .low => "low"
  | .medium => "medium"
  | .high => "high"
  | .critical => "critical"

/-- Result of the open-hole patching pass inside one loop iteration. -/
structure PatchOut where
  res : Except String Unit
  db : DBState
  trace : List PEvent
  research : Nat
  deriving Repr

/-- The `for (const hole of openHoles)` pass of the loop: for each open hole,
if research budget remains, research a remediation; when one is returned,
consume a research unit, apply it as a patch and emit `hole_patched`.  An
`applyPatch` throw aborts the whole percolation (propagates). -/
def patchHoles (blueprintId : String) (unlimited : Bool) (maxRQ : Int) :
    List Hole → Nat → DBState → PatchOut
  | [], used, st => ⟨.ok (), st, [], used⟩
  | hole :: rest, used, st =>
    if unlimited || (used : Int) < maxRQ then
      match researchForHole hole with
      | none => patchHoles blueprintId unlimited maxRQ rest used st
      | some improvement =>
        let used' := used + 1
        match applyPatch st blueprintId hole.id improvement.patch with
        | .error e => ⟨.error e, st, [], used'⟩
        | .ok st' =>
          let evt : PEvent :=
            ⟨"hole_patched", blueprintId,
              [("hole_id", hole.id), ("improvement_source", improvement.source)]⟩
          let out := patchHoles blueprintId unlimited maxRQ rest used' st'
          ⟨out.res, out.db, evt :: out.trace, out.research⟩
    else patchHoles blueprintId unlimited maxRQ rest used st

/-- Result of the percolation loop: outcome, final store state, the events
emitted by this run (in order), final iteration counter and research-query
count. -/
structure LoopOut where
  res : Except String Unit
  db : DBState
  trace : List PEvent
  iteration : Nat
  research : Nat
  deriving Repr

/-- The `while (iteration < maxIterations)` loop of engine.ts
`runPercolationLoop`, with `fuel = maxIterations - iteration` (the counter
increments exactly once per pass, so the fuel is exact).  Checks budget at the
iteration boundary, runs a stress test, conditionally runs the hole finder,
patches open holes, and early-exits after a clean final consistency test.
There is no wall-clock or timeout check anywhere in the body. -/
def loopGo (blueprintId : String) (maxIterations : Nat) (unlimited : Bool)
    (maxRQ : Int) : Nat → Nat → Nat → DBState → LoopOut
  | 0, iteration, used, st => ⟨.ok (), st, [], iteration, used⟩
  | fuel + 1, iteration, used, st =>
    match getBlueprint st blueprintId with
    | none => ⟨.error ("Blueprint not found: " ++ blueprintId), st, [], iteration, used⟩
    | some currentBlueprint =>
      let remainingBudget := currentBlueprint.budget_tokens - currentBlueprint.tokens_used
      if remainingBudget < 100 then
        ⟨.ok (),
          logDb st blueprintId "BUDGET_EXHAUSTED"
            ("remaining=" ++ toString remainingBudget),
          [], iteration, used⟩
      else
        let iter := iteration + 1
        let testType := selectTestType iter maxIterations
        let intensity := calculateIntensity iter maxIterations
        let evRun : PEvent :=
          ⟨"stress_test_running", blueprintId,
            [("iteration", toString iter), ("test_type", testType),
             ("intensity", toString intensity)]⟩
        match runTest st blueprintId testType intensity with
        | .error e => ⟨.error e, st, [evRun], iter, used⟩
        | .ok (st1, testResult) =>
          let evDone : PEvent :=
            ⟨"stress_test_complete", blueprintId,
              [("iteration", toString iter), ("passed", toString testResult.passed),
               ("holes_found", toString testResult.holesFound)]⟩
          let findStep : Except String (DBState × List PEvent) :=
            if testResult.passed then .ok (st1, [])
            else
              match analyze st1 blueprintId (analysisDepthFor iter maxIterations) with
              | .error e => .error e
              | .ok (st2, found) =>
                .ok (st2, found.map fun h =>
                  ⟨"hole_found", blueprintId,
                    [("hole_id", h.id), ("type", h.type),
                     ("severity", sevStr h.severity)]⟩)
          match findStep with
          | .error e => ⟨.error e, st1, [evRun, evDone], iter, used⟩
          | .ok (st2, foundEvts) =>
            let openHoles := getHolesForBlueprint st2 blueprintId (some .open_)
            let pOut := patchHoles blueprintId unlimited maxRQ openHoles used st2
            match pOut.res with
            | .error e =>
              ⟨.error e, pOut.db, evRun :: evDone :: foundEvts ++ pOut.trace, iter,
                pOut.research⟩
            | .ok _ =>
              let st3 := pOut.db
              let remainingHoles := countOpenHoles st3 blueprintId
              let headTrace := evRun :: evDone :: foundEvts ++ pOut.trace
              if remainingHoles == 0 && iter ≥ 3 then
                match runTest st3 blueprintId "consistency" 10 with
                | .error e => ⟨.error e, st3, headTrace, iter, pOut.research⟩
                | .ok (st4, finalTest) =>
                  if finalTest.passed then
                    ⟨.ok (),
                      logDb st4 blueprintId "EARLY_COMPLETION"
                        ("iteration=" ++ toString iter ++
                          " reason=All holes patched and final test passed"),
                      headTrace, iter, pOut.research⟩
                  else
                    let out := loopGo blueprintId maxIterations unlimited maxRQ fuel
                      iter pOut.research st4
                    ⟨out.res, out.db, headTrace ++ out.trace, out.iteration, out.research⟩
              else
                let out := loopGo blueprintId maxIterations unlimited maxRQ fuel
                  iter pOut.research st3
                ⟨out.res, out.db, headTrace ++ out.trace, out.iteration, out.research⟩

/-- Result of `runPercolationLoop`: outcome, final store state, emitted events. -/
structure RunOut where
  res : Except String Unit
  db : DBState
  trace : List PEvent
  deriving Repr

/-- engine.ts `runPercolationLoop`: reads the depth configuration, logs the loop
start, runs the loop, and on normal exit computes the confidence score, marks
the blueprint completed with it, logs and emits `percolation_complete`.  No
timeout is tracked and no penalty is ever applied to the score. -/
def runPercolationLoop (cfg : PercolatorConfig) (st : DBState)
    (blueprintId : String) : RunOut :=
  match getBlueprint st blueprintId with
  | none => ⟨.error ("Blueprint not found: " ++ blueprintId), st, []⟩
  | some blueprint =>
    let depthConfig := depthConfigFor cfg blueprint.depth
    let maxIterations := depthConfig.stressTests
    let unlimited := depthConfig.researchQueries == -1
    let st0 := logDb st blueprintId "PERCOLATION_LOOP_START"
      ("max_iterations=" ++ toString maxIterations ++
        " budget=" ++ toString blueprint.budget_tokens ++
        " depth=" ++ depthStr blueprint.depth)
    let out := loopGo blueprintId maxIterations unlimited depthConfig.researchQueries
      maxIterations 0 0 st0
    match out.res with
    | .error e => ⟨.error e, out.db, out.trace⟩
    | .ok _ =>
      let confidenceScore := calculateConfidence out.db blueprintId
      let st1 := updateBlueprintStatus out.db blueprintId .completed
        (some confidenceScore)
      let st2 := logDb st1 blueprintId "PERCOLATION_COMPLETE"
        ("iterations=" ++ toString out.iteration ++
          " research_queries=" ++ toString out.research ++
          " final_confidence=" ++ ratStr confidenceScore)
      ⟨.ok (), st2,
        out.trace ++
          [⟨"percolation_complete", blueprintId,
            [("confidence_score", ratStr confidenceScore),
             ("iterations", toString out.iteration)]⟩]⟩

/-- The engine's in-memory state: the store plus the active-percolation id set
(`activePercolations`). -/
structure EngineState where
  db : DBState
  active : List String
  deriving Repr

/-- engine.ts `percolate`: precondition checks (already active, concurrency
limit, existence, pending status, in source order), then marks the blueprint
percolating, emits `percolation_started` and runs the loop; a loop error marks
the blueprint failed, emits `percolation_failed` with the error message and
re-throws; the `finally` block removes the id from the active set on every
path that inserted it. -/
def percolate (cfg : PercolatorConfig) (es : EngineState) (blueprintId : String) :
    Except String Unit × EngineState × List PEvent :=
  if es.active.contains blueprintId then
    (.error ("Blueprint " ++ blueprintId ++ " is already being percolated"), es, [])
  else if es.active.length ≥ cfg.maxConcurrentPercolations then
    (.error ("Maximum concurrent percolations (" ++
      toString cfg.maxConcurrentPercolations ++ ") reached"), es, [])
  else
    match getBlueprint es.db blueprintId with
    | none => (.error ("Blueprint not found: " ++ blueprintId), es, [])
    | some blueprint =>
      if blueprint.status ≠ .pending then
        (.error ("Blueprint is not pending (status: " ++ statusStr blueprint.status ++ ")"),
          es, [])
      else
        let active := blueprintId :: es.active
        let db0 := updateBlueprintStatus es.db blueprintId .percolating none
        let startEvt : PEvent :=
          ⟨"percolation_started", blueprintId,
            [("depth", depthStr blueprint.depth),
             ("budget", toString blueprint.budget_tokens)]⟩
        let out := runPercolationLoop cfg db0 blueprintId
        match out.res with
        | .ok _ =>
          (.ok (), ⟨out.db, active.erase blueprintId⟩, startEvt :: out.trace)
        | .error e =>
          let db1 := updateBlueprintStatus out.db blueprintId .failed none
          (.error e, ⟨db1, active.erase blueprintId⟩,
            startEvt :: (out.trace ++
              [⟨"percolation_failed", blueprintId, [("error", e)]⟩]))

/-! Store-operation lemmas. -/

/-- `find?` through a conditional row update that cannot change which rows match
the search predicate. -/
theorem find?_map_update {α : Type} (p : α → Bool) (g : α → α)
    (hg : ∀ a, p (g a) = p a) :
    ∀ l : List α, (l.map g).find? p = (l.find? p).map g := by
  intro l
  induction l with
  | nil => rfl
  | cons hd tl ih =>
    by_cases h : p hd
    · simp [List.find?, hg, h]
    · simp only [List.map_cons, List.find?]
      rw [hg hd]
      simp only [h, cond_false]
      exact ih

/-- Reading back a blueprint after `updateBlueprintContent` on the same id. -/
theorem getBlueprint_updateContent (st : DBState) (id c : String) (t : Int) :
    getBlueprint (updateBlueprintContent st id c t) id =
      (getBlueprint st id).map fun b =>
        { b with current_content := c, tokens_used := b.tokens_used + t } := by
  unfold getBlueprint updateBlueprintContent
  have h := find?_map_update (fun b : Blueprint => b.id == id)
    (fun b => if b.id == id then
        { b with current_content := c, tokens_used := b.tokens_used + t }
      else b)
    (fun b => by by_cases hb : b.id == id <;> simp [hb]) st.blueprints
  rw [h]
  cases hf : st.blueprints.find? (fun b => b.id == id) with
  | none => rfl
  | some b =>
    have hb := List.find?_some hf
    simp at hb
    simp [hb]

/-- Reading back a blueprint after `updateBlueprintStatus` on the same id. -/
theorem getBlueprint_updateStatus (st : DBState) (id : String) (s : BStatus)
    (conf : Option ℚ) :
    getBlueprint (updateBlueprintStatus st id s conf) id =
      (getBlueprint st id).map fun b =>
        { b with
          status := s
          confidence_score := conf.getD b.confidence_score
          completed_at :=
            if s == .completed || s == .failed then some st.clock
            else b.completed_at } := by
  unfold getBlueprint updateBlueprintStatus
  have h := find?_map_update (fun b : Blueprint => b.id == id)
    (fun b => if b.id == id then
        { b with
          status := s
          confidence_score := conf.getD b.confidence_score
          completed_at :=
            if s == .completed || s == .failed then some st.clock
            else b.completed_at }
      else b)
    (fun b => by by_cases hb : b.id == id <;> simp [hb]) st.blueprints
  rw [h]
  cases hf : st.blueprints.find? (fun b => b.id == id) with
  | none => rfl
  | some b =>
    have hb := List.find?_some hf
    simp at hb
    simp [hb]

/-- Reading back a hole after `updateHoleStatus` on the same id. -/
theorem getHole_updateHoleStatus (st : DBState) (id : String) (s : HStatus) :
    getHole (updateHoleStatus st id s) id =
      (getHole st id).map fun h =>
        { h with
          status := s
          patched_at := if s == .patched then some st.clock else none } := by
  unfold getHole updateHoleStatus
  have h := find?_map_update (fun h : Hole => h.id == id)
    (fun h => if h.id == id then
        { h with
          status := s
          patched_at := if s == .patched then some st.clock else none }
      else h)
    (fun h => by by_cases hb : h.id == id <;> simp [hb]) st.holes
  rw [h]
  cases hf : st.holes.find? (fun h => h.id == id) with
  | none => rfl
  | some b =>
    have hb := List.find?_some hf
    simp at hb
    simp [hb]

/-- Log writes do not touch the blueprints table. -/
theorem getBlueprint_logDb (st : DBState) (i a d j : String) :
    getBlueprint (logDb st i a d) j = getBlueprint st j := rfl

/-- Hole-status writes do not touch the blueprints table. -/
theorem getBlueprint_updateHoleStatus (st : DBState) (i : String) (s : HStatus)
    (j : String) :
    getBlueprint (updateHoleStatus st i s) j = getBlueprint st j := rfl

/-- Content writes do not touch the holes table. -/
theorem getHole_updateContent (st : DBState) (id c : String) (t : Int) (j : String) :
    getHole (updateBlueprintContent st id c t) j = getHole st j := rfl

/-- Log writes do not touch the holes table. -/
theorem getHole_logDb (st : DBState) (i a d j : String) :
    getHole (logDb st i a d) j = getHole st j := rfl

/-! Claim theorems. -/

/-- The Confidence Scorer exactly as the specification words it: start at 0.5;
if any holes exist add 0.2 x patchRate - 0.05 x openHoleCount; if any test runs
exist add 0.25 x passRate; add min(0.15, 0.03 x optimizationCount); clamp the
result to [0,1]. -/
def specConfidence (holes : List Hole) (tests : List StressTest)
    (opts : List Optimization) : ℚ :=
  let patched := (holes.filter (fun h => h.status == HStatus.patched)).length
  let openCount := (holes.filter (fun h => h.status == HStatus.open_)).length
  let holeTerm : ℚ :=
    if holes.length > 0 then
      0.2 * ((patched : ℚ) / (holes.length : ℚ)) - 0.05 * (openCount : ℚ)
    else 0
  let testTerm : ℚ :=
    if tests.length > 0 then
      0.25 * (((tests.filter (fun t => t.passed)).length : ℚ) / (tests.length : ℚ))
    else 0
  let optTerm : ℚ := min 0.15 (0.03 * (opts.length : ℚ))
  min 1 (max 0 (0.5 + holeTerm + testTerm + optTerm))

/-- Clamping from below then above agrees with clamping above then below. -/
theorem clamp_comm (x : ℚ) : max 0 (min 1 x) = min 1 (max 0 x) := by
  rw [max_min_distrib_left]
  norm_num

/-- C5: for every blueprint history, the confidence score equals 0.5, plus
0.2 x patchRate - 0.05 x openHoleCount when at least one hole exists, plus
0.25 x passRate when at least one test run exists, plus
min(0.15, 0.03 x optimizationCount), clamped to [0,1]; in particular the score
is always within [0,1]. -/
theorem calculateConfidence_formula_and_bounds :
    ∀ (st : DBState) (id : String),
      calculateConfidence st id =
        specConfidence (getHolesForBlueprint st id none)
          (getStressTestsForBlueprint st id)
          (getOptimizationsForBlueprint st id) ∧
      0 ≤ calculateConfidence st id ∧ calculateConfidence st id ≤ 1 := by
  intro st id
  refine ⟨?_, ?_, ?_⟩
  · simp only [calculateConfidence, specConfidence]
    split_ifs <;>
      · rw [clamp_comm]
        congr 1
        congr 1
        ring_nf
  · unfold calculateConfidence
    exact le_max_left _ _
  · unfold calculateConfidence
    exact max_le (by norm_num) (min_le_left _ _)

/-- C4: `applyOptimization` with token cost `ceil(len(content)/4)` strictly
greater than the remaining budget is rejected with an error and mutates
nothing; otherwise it appends the content behind a marker, increments
`tokens_used` by the cost, and persists one Optimization record. -/
theorem applyOptimization_budget_spec (st : DBState) (id src desc content : String)
    (bp : Blueprint) (h : getBlueprint st id = some bp) :
    (((estimateTokens content : Int) > bp.budget_tokens - bp.tokens_used →
        applyOptimization st id src desc content =
          .error ("Insufficient budget: need " ++ toString (estimateTokens content) ++
            ", have " ++ toString (bp.budget_tokens - bp.tokens_used)))) ∧
    ((estimateTokens content : Int) ≤ bp.budget_tokens - bp.tokens_used →
        ∃ st' oid, applyOptimization st id src desc content = .ok (st', oid) ∧
          getBlueprint st' id = some { bp with
            current_content := bp.current_content ++
              ("\n\n<!-- OPTIMIZATION: " ++ src ++ " -->\n") ++ content
            tokens_used := bp.tokens_used + (estimateTokens content : Int) } ∧
          (getOptimizationsForBlueprint st' id).length =
            (getOptimizationsForBlueprint st id).length + 1) := by
  constructor
  · intro hover
    unfold applyOptimization
    rw [h]
    simp only [gt_iff_lt]
    rw [if_pos hover]
  · intro hle
    unfold applyOptimization
    rw [h]
    simp only [gt_iff_lt]
    rw [if_neg (by exact not_lt.mpr hle)]
    refine ⟨_, _, rfl, ?_, ?_⟩
    · show getBlueprint (logDb _ _ _ _) id = _
      rw [getBlueprint_logDb]
      show getBlueprint
        { updateBlueprintContent st id _ _ with
          optimizations := _, clock := _ } id = _
      unfold getBlueprint
      show (updateBlueprintContent st id _ _).blueprints.find? _ = _
      rw [show ∀ s : DBState, s.blueprints.find? (fun b => b.id == id) =
            getBlueprint s id from fun _ => rfl]
      rw [getBlueprint_updateContent, h]
      simp [String.append_assoc]
    · show (getOptimizationsForBlueprint (logDb _ _ _ _) id).length = _
      unfold getOptimizationsForBlueprint logDb updateBlueprintContent
        createOptimization
      simp

/-- A pending blueprint with a budget of 10 tokens. -/
def wBudgetBp : Blueprint :=
  { id := "b", original_content := "doc", current_content := "doc",
    status := .pending, depth := .quick, budget_tokens := 10, tokens_used := 0,
    confidence_score := 0, completed_at := none }

/-- Store holding only `wBudgetBp`. -/
def wBudgetSt : DBState := ⟨[wBudgetBp], [], [], [], [], 0⟩

/-- A 48-character content whose token cost 12 exceeds the remaining budget 10. -/
def wBudgetContent : String := "012345678901234567890123456789012345678901234567"

/-- Witness for C4: on a concrete store, an over-budget optimization is
rejected with the insufficient-budget error. -/
theorem applyOptimization_budget_spec_witness :
    applyOptimization wBudgetSt "b" "tsrc" "tdesc" wBudgetContent =
      .error ("Insufficient budget: need " ++ toString (estimateTokens wBudgetContent) ++
        ", have " ++ toString (wBudgetBp.budget_tokens - wBudgetBp.tokens_used)) :=
  (applyOptimization_budget_spec wBudgetSt "b" "tsrc" "tdesc" wBudgetContent
    wBudgetBp rfl).1 (by decide)

/-- The exact success behavior of `applyPatch` whenever the blueprint and hole
exist and the hole belongs to the blueprint: no further validation happens, and
the result is content-append + token charge + hole marked patched + one log
entry. -/
theorem applyPatch_ok_eq (st : DBState) (id hid patch : String) (bp : Blueprint)
    (hole : Hole) (hb : getBlueprint st id = some bp)
    (hh : getHole st hid = some hole) (hown : hole.blueprint_id = id) :
    applyPatch st id hid patch =
      .ok (logDb (updateHoleStatus (updateBlueprintContent st id
          (bp.current_content ++ ("\n\n<!-- FIX: " ++ hole.hole_type ++ " -->\n") ++ patch)
          (estimateTokens patch : Int)) hid .patched) id "OPTIMIZER_PATCH"
          ("hole_id=" ++ hid ++ " hole_type=" ++ hole.hole_type ++
            " patch_length=" ++ toString patch.length ++
            " tokens_used=" ++ toString (estimateTokens patch))) := by
  unfold applyPatch
  rw [hb, hh]
  simp [hown]

/-- A pending blueprint owning one already-patched hole. -/
def cPatchedBp : Blueprint :=
  { id := "b", original_content := "doc", current_content := "doc",
    status := .pending, depth := .quick, budget_tokens := 1000, tokens_used := 0,
    confidence_score := 0, completed_at := none }

/-- The already-patched hole of the C2 counterexample store. -/
def cPatchedHole : Hole :=
  { id := "h", blueprint_id := "b", hole_type := "missing_step",
    description := "step absent", severity := .medium, status := .patched,
    location := none, suggested_fix := none, identified_at := 0,
    patched_at := some 0 }

/-- Counterexample store for C2. -/
def cPatchedSt : DBState := ⟨[cPatchedBp], [cPatchedHole], [], [], [], 1⟩

/-- C2 counterexample: on a concrete store whose hole "h" is already patched
(status not open), `applyPatch` is NOT rejected: it returns ok and mutates the
blueprint (`tokens_used` goes from 0 to 1), refuting the claimed
invalid-state rejection. -/
theorem applyPatch_patched_hole_not_rejected :
    cPatchedHole.status ≠ .open_ ∧
    (getBlueprint cPatchedSt "b").map (fun b => b.tokens_used) = some 0 ∧
    (applyPatch cPatchedSt "b" "h" "fix").toOption.map
        (fun st' => ((getBlueprint st' "b").map (fun b => b.tokens_used),
          (getHole st' "h").map (fun h => h.status))) =
      some (some 1, some .patched) := by
  decide

/-- C2 (amended): `applyPatch` validates only existence and ownership and never
checks the hole status: for every hole whose status is not open (patched or
wont_fix) the call succeeds, appends the patch behind the category marker,
charges ceil(len/4) tokens and (re)marks the hole patched.  (The
"Hole is not open" rejection lives in the patch-hole MCP tool, not here.) -/
theorem applyPatch_ignores_hole_status (st : DBState) (id hid patch : String)
    (bp : Blueprint) (hole : Hole) (hb : getBlueprint st id = some bp)
    (hh : getHole st hid = some hole) (hown : hole.blueprint_id = id)
    (hst : hole.status ≠ .open_) :
    ∃ st', applyPatch st id hid patch = .ok st' ∧
      getBlueprint st' id = some { bp with
        current_content := bp.current_content ++
          ("\n\n<!-- FIX: " ++ hole.hole_type ++ " -->\n") ++ patch
        tokens_used := bp.tokens_used + (estimateTokens patch : Int) } ∧
      (getHole st' hid).map (fun h => h.status) = some .patched := by
  refine ⟨_, applyPatch_ok_eq st id hid patch bp hole hb hh hown, ?_, ?_⟩
  · rw [getBlueprint_logDb, getBlueprint_updateHoleStatus,
      getBlueprint_updateContent, hb]
    rfl
  · rw [getHole_logDb, getHole_updateHoleStatus, getHole_updateContent, hh]
    rfl

/-- Store for the C2 witness (a wont_fix hole this time). -/
def wNonOpenHole : Hole :=
  { id := "h", blueprint_id := "b", hole_type := "inconsistency",
    description := "terminology drift", severity := .low, status := .wont_fix,
    location := none, suggested_fix := none, identified_at := 0,
    patched_at := none }

/-- Blueprint for the C2 witness. -/
def wNonOpenBp : Blueprint :=
  { id := "b", original_content := "doc", current_content := "doc",
    status := .pending, depth := .quick, budget_tokens := 1000, tokens_used := 0,
    confidence_score := 0, completed_at := none }

/-- Store for the C2 witness. -/
def wNonOpenSt : DBState := ⟨[wNonOpenBp], [wNonOpenHole], [], [], [], 1⟩

/-- Witness for the amended C2: patching a wont_fix hole on a concrete store
succeeds with the described mutations. -/
theorem applyPatch_ignores_hole_status_witness :
    ∃ st', applyPatch wNonOpenSt "b" "h" "fix" = .ok st' ∧
      getBlueprint st' "b" = some { wNonOpenBp with
        current_content := wNonOpenBp.current_content ++
          ("\n\n<!-- FIX: " ++ wNonOpenHole.hole_type ++ " -->\n") ++ "fix"
        tokens_used := wNonOpenBp.tokens_used + (estimateTokens "fix" : Int) } ∧
      (getHole st' "h").map (fun h => h.status) = some .patched :=
  applyPatch_ignores_hole_status wNonOpenSt "b" "h" "fix" wNonOpenBp wNonOpenHole
    rfl rfl rfl (by decide)

/-- C9: `applyPatch` performs no budget check — with an existing blueprint and
an existing open hole that belongs to it, the call succeeds and charges
ceil(len(patch)/4) tokens even when that cost exceeds the remaining budget, so
afterwards `tokens_used` exceeds `budget_tokens`. -/
theorem applyPatch_no_budget_check (st : DBState) (id hid patch : String)
    (bp : Blueprint) (hole : Hole) (hb : getBlueprint st id = some bp)
    (hh : getHole st hid = some hole) (hown : hole.blueprint_id = id)
    (hopen : hole.status = .open_)
    (hover : (estimateTokens patch : Int) > bp.budget_tokens - bp.tokens_used) :
    ∃ st', applyPatch st id hid patch = .ok st' ∧
      (getBlueprint st' id).map (fun b => b.tokens_used) =
        some (bp.tokens_used + (estimateTokens patch : Int)) ∧
      bp.tokens_used + (estimateTokens patch : Int) > bp.budget_tokens := by
  refine ⟨_, applyPatch_ok_eq st id hid patch bp hole hb hh hown, ?_, by linarith⟩
  rw [getBlueprint_logDb, getBlueprint_updateHoleStatus,
    getBlueprint_updateContent, hb]
  rfl

/-- Open hole for the C9 witness. -/
def wOverHole : Hole :=
  { id := "h", blueprint_id := "b", hole_type := "missing_step",
    description := "no verification", severity := .medium, status := .open_,
    location := none, suggested_fix := none, identified_at := 0,
    patched_at := none }

/-- Blueprint with 10 remaining budget tokens for the C9 witness. -/
def wOverBp : Blueprint :=
  { id := "b", original_content := "doc", current_content := "doc",
    status := .percolating, depth := .quick, budget_tokens := 10, tokens_used := 0,
    confidence_score := 0, completed_at := none }

/-- Store for the C9 witness. -/
def wOverSt : DBState := ⟨[wOverBp], [wOverHole], [], [], [], 1⟩

/-- A 100-character patch (token cost 25, far above the 10 remaining tokens). -/
def wOverPatch : String :=
  String.mk (List.replicate 100 'a')

/-- Witness for C9: the over-budget patch succeeds on a concrete store and
pushes `tokens_used` to 25 > 10 = `budget_tokens`. -/
theorem applyPatch_no_budget_check_witness :
    ∃ st', applyPatch wOverSt "b" "h" wOverPatch = .ok st' ∧
      (getBlueprint st' "b").map (fun b => b.tokens_used) =
        some (wOverBp.tokens_used + (estimateTokens wOverPatch : Int)) ∧
      wOverBp.tokens_used + (estimateTokens wOverPatch : Int) > wOverBp.budget_tokens :=
  applyPatch_no_budget_check wOverSt "b" "h" wOverPatch wOverBp wOverHole
    rfl rfl rfl rfl (by decide)

/-- Open hole for the C3 store. -/
def cGrowHole : Hole :=
  { id := "h", blueprint_id := "b", hole_type := "missing_step",
    description := "no verification", severity := .medium, status := .open_,
    location := none, suggested_fix := none, identified_at := 0,
    patched_at := none }

/-- Blueprint for the C3 store ("doc" has 3 characters). -/
def cGrowBp : Blueprint :=
  { id := "b", original_content := "doc", current_content := "doc",
    status := .percolating, depth := .quick, budget_tokens := 1000000,
    tokens_used := 0, confidence_score := 0, completed_at := none }

/-- Store for the C3 theorem. -/
def cGrowSt : DBState := ⟨[cGrowBp], [cGrowHole], [], [], [], 1⟩

/-- C3: `applyPatch` checks no patch-size or content-size limit at all — a
patch of every length n succeeds and grows `current_content` to exactly
32 + n characters (3 for "doc" plus the 29-character marker plus n), so the
content length is not bounded by any configured maximum (in particular a
single patch with n = 200000 drives the content far beyond the documented
102400-byte cap without an error naming the attempted and limit sizes). -/
theorem applyPatch_content_growth_unbounded :
    ∀ n : Nat, ∃ st',
      applyPatch cGrowSt "b" "h" (String.mk (List.replicate n 'a')) = .ok st' ∧
      (getBlueprint st' "b").map (fun b => b.current_content.length) =
        some (32 + n) := by
  intro n
  refine ⟨_, applyPatch_ok_eq cGrowSt "b" "h" _ cGrowBp cGrowHole rfl rfl rfl, ?_⟩
  rw [getBlueprint_logDb, getBlueprint_updateHoleStatus,
    getBlueprint_updateContent]
  show ((getBlueprint cGrowSt "b").map _).map _ = _
  rw [show getBlueprint cGrowSt "b" = some cGrowBp from rfl]
  simp [String.length_append, cGrowBp]
  rfl

/-- The `issues` counter of every detector block equals the number of holes
pushed so far, and `condStep` preserves that. -/
theorem condStep_count (acc : List String × List HoleDetection × Nat) (t e : Bool)
    (f : String) (hd : HoleDetection) (hacc : acc.2.2 = acc.2.1.length) :
    (condStep acc t e f hd).2.2 = (condStep acc t e f hd).2.1.length := by
  unfold condStep
  cases t <;> cases e <;> simp [hacc]

/-- `passed` agrees with "zero holes escalated" for `testEdgeCases`. -/
theorem testEdgeCases_count (content : String) (i : Nat) :
    (testEdgeCases content i).passed =
      ((testEdgeCases content i).holes.length == 0) := by
  unfold testEdgeCases condStep
  split_ifs <;> rfl

/-- `passed` agrees with "zero holes escalated" for `testAdversarial`. -/
theorem testAdversarial_count (content : String) (i : Nat) :
    (testAdversarial content i).passed =
      ((testAdversarial content i).holes.length == 0) := by
  unfold testAdversarial condStep
  split_ifs <;> rfl

/-- `passed` agrees with "zero holes escalated" for `testLoad`. -/
theorem testLoad_count (content : String) (i : Nat) :
    (testLoad content i).passed = ((testLoad content i).holes.length == 0) := by
  unfold testLoad condStep
  split_ifs <;> rfl

/-- `passed` agrees with "zero holes escalated" for `testBoundary`. -/
theorem testBoundary_count (content : String) (i : Nat) :
    (testBoundary content i).passed =
      ((testBoundary content i).holes.length == 0) := by
  unfold testBoundary condStep
  split_ifs <;> rfl

/-- Packaging a finding/hole/issue accumulator whose counter equals the hole
count always yields agreeing `passed` and hole-emptiness. -/
theorem passedOf (acc : List String × List HoleDetection × Nat)
    (h : acc.2.2 = acc.2.1.length) :
    (DetectorOut.mk (acc.2.2 == 0) acc.1 acc.2.1).passed =
      ((DetectorOut.mk (acc.2.2 == 0) acc.1 acc.2.1).holes.length == 0) := by
  show (acc.2.2 == 0) = (acc.2.1.length == 0)
  rw [h]

/-- Any fold whose step preserves the counter invariant preserves it. -/
theorem foldl_detInv {α : Type}
    (f : (List String × List HoleDetection × Nat) → α →
      List String × List HoleDetection × Nat)
    (hf : ∀ acc a, acc.2.2 = acc.2.1.length → (f acc a).2.2 = (f acc a).2.1.length) :
    ∀ (l : List α) (acc : List String × List HoleDetection × Nat),
      acc.2.2 = acc.2.1.length → (l.foldl f acc).2.2 = (l.foldl f acc).2.1.length := by
  intro l
  induction l with
  | nil => intro acc h; exact h
  | cons hd tl ih => intro acc h; exact ih _ (hf acc hd h)

/-- `passed` agrees with "zero holes escalated" for `testSecurity`. -/
theorem testSecurity_count (content : String) (i : Nat) :
    (testSecurity content i).passed =
      ((testSecurity content i).holes.length == 0) := by
  unfold testSecurity
  exact passedOf _ (condStep_count _ _ _ _ _
    (by
      unfold securityTermSteps
      exact foldl_detInv _ (fun acc a h => condStep_count _ _ _ _ _ h) _ _ rfl))

/-- `passed` agrees with "zero holes escalated" for `testConsistency`. -/
theorem testConsistency_count (content : String) (i : Nat) :
    (testConsistency content i).passed =
      ((testConsistency content i).holes.length == 0) := by
  unfold testConsistency
  refine passedOf _ (foldl_detInv _ (fun acc a h => condStep_count _ _ _ _ _ h) _ _ ?_)
  split_ifs
  · cases firstGap (((content.splitOn "\n").filter isStepLine).map firstNumber) with
    | none => rfl
    | some g => exact condStep_count _ _ _ _ _ rfl
  · rfl

/-- `passed` agrees with "zero holes escalated" for every category. -/
theorem executeTest_count (content tt : String) (i : Nat) :
    (executeTest content tt i).passed =
      ((executeTest content tt i).holes.length == 0) := by
  unfold executeTest
  split_ifs with h1 h2 h3 h4 h5 h6
  · exact testEdgeCases_count content i
  · exact testAdversarial_count content i
  · exact testLoad_count content i
  · exact testBoundary_count content i
  · exact testSecurity_count content i
  · exact testConsistency_count content i
  · rfl

/-- The hole-persisting loop of `runTest`: it creates exactly one Hole row per
detection, counts them, and touches no other table. -/
theorem createHoles_spec (bid : String) :
    ∀ (ds : List HoleDetection) (st : DBState) (n : Nat),
      (createHolesFromDetections bid ds st n).2 = n + ds.length ∧
      (createHolesFromDetections bid ds st n).1.holes.length =
        st.holes.length + ds.length ∧
      (createHolesFromDetections bid ds st n).1.stressTests = st.stressTests ∧
      (createHolesFromDetections bid ds st n).1.blueprints = st.blueprints := by
  intro ds
  induction ds with
  | nil => intro st n; simp [createHolesFromDetections]
  | cons d rest ih =>
    intro st n
    have h := ih (createHole st bid d.type d.description d.severity none none).2 (n + 1)
    unfold createHolesFromDetections
    simp only [createHole] at h ⊢
    refine ⟨?_, ?_, ?_, ?_⟩
    · rw [h.1]
      simp [List.length_cons]
      omega
    · rw [h.2.1]
      simp [List.length_cons]
      omega
    · exact h.2.2.1
    · exact h.2.2.2

/-- C8: for every stress-test run on an existing blueprint, the reported result
has passed = true iff the run created zero Hole records, and exactly one
StressTestRun record is persisted regardless of outcome. -/
theorem runTest_passed_iff_no_holes (st : DBState) (id tt : String)
    (intensity : Nat) (bp : Blueprint) (h : getBlueprint st id = some bp) :
    ∃ st' r, runTest st id tt intensity = .ok (st', r) ∧
      (r.passed = true ↔ r.holesFound = 0) ∧
      st'.stressTests.length = st.stressTests.length + 1 ∧
      st'.holes.length = st.holes.length + r.holesFound := by
  unfold runTest
  rw [h]
  refine ⟨_, _, rfl, ?_, ?_, ?_⟩
  · show (executeTest bp.current_content tt intensity).passed = true ↔
      (createHolesFromDetections id
        (executeTest bp.current_content tt intensity).holes _ 0).2 = 0
    rw [(createHoles_spec id _ _ 0).1, executeTest_count]
    simp
  · show (createHolesFromDetections id _ _ 0).1.stressTests.length = _
    rw [(createHoles_spec id _ _ 0).2.2.1]
    rfl
  · show (createHolesFromDetections id _ _ 0).1.holes.length = _
    rw [(createHoles_spec id _ _ 0).2.1, (createHoles_spec id _ _ 0).1]
    simp

/-- Blueprint for the C8 witness. -/
def wRunBp : Blueprint :=
  { id := "b", original_content := "doc", current_content := "doc",
    status := .pending, depth := .quick, budget_tokens := 1000, tokens_used := 0,
    confidence_score := 0, completed_at := none }

/-- Store for the C8 witness. -/
def wRunSt : DBState := ⟨[wRunBp], [], [], [], [], 0⟩

/-- Witness for C8 at a concrete store and category. -/
theorem runTest_passed_iff_no_holes_witness :
    ∃ st' r, runTest wRunSt "b" "edge_case" 5 = .ok (st', r) ∧
      (r.passed = true ↔ r.holesFound = 0) ∧
      st'.stressTests.length = wRunSt.stressTests.length + 1 ∧
      st'.holes.length = wRunSt.holes.length + r.holesFound :=
  runTest_passed_iff_no_holes wRunSt "b" "edge_case" 5 wRunBp rfl

/-- C10: for every category string outside the six known ones, `runTest` on an
existing blueprint passes with no findings, creates no Hole records, and still
persists exactly one StressTestRun record (for the unknown category). -/
theorem runTest_unknown_category_passes (st : DBState) (id tt : String)
    (intensity : Nat) (bp : Blueprint) (h : getBlueprint st id = some bp)
    (hu : ¬ tt ∈ stressTestTypes) :
    runTest st id tt intensity =
      .ok ({ st with
              stressTests :=
                ⟨freshId st, id, tt, intensity, true, [], 0, st.clock⟩ :: st.stressTests
              clock := st.clock + 1 },
        ⟨freshId st, true, [], 0, 0⟩) := by
  have hex : executeTest bp.current_content tt intensity = ⟨true, [], []⟩ := by
    simp only [stressTestTypes, List.mem_cons, List.not_mem_nil, or_false,
      not_or] at hu
    unfold executeTest
    rw [if_neg, if_neg, if_neg, if_neg, if_neg, if_neg] <;>
      simp [hu.1, hu.2.1, hu.2.2.1, hu.2.2.2.1, hu.2.2.2.2.1, hu.2.2.2.2.2]
  unfold runTest
  rw [h]
  simp only [hex]
  rfl

/-- Blueprint for the C10 witness. -/
def wUnknownBp : Blueprint :=
  { id := "b", original_content := "doc", current_content := "doc",
    status := .pending, depth := .quick, budget_tokens := 1000, tokens_used := 0,
    confidence_score := 0, completed_at := none }

/-- Store for the C10 witness. -/
def wUnknownSt : DBState := ⟨[wUnknownBp], [], [], [], [], 0⟩

/-- The Scorer reads only the holes, stress-test and optimization tables. -/
theorem calculateConfidence_congr (s1 s2 : DBState) (j : String)
    (hh : s1.holes = s2.holes) (hs : s1.stressTests = s2.stressTests)
    (ho : s1.optimizations = s2.optimizations) :
    calculateConfidence s1 j = calculateConfidence s2 j := by
  unfold calculateConfidence getHolesForBlueprint getStressTestsForBlueprint
    getOptimizationsForBlueprint
  rw [hh, hs, ho]

/-- C7: whenever the remaining budget at an iteration boundary is below 100
the loop stops right there (appending only the BUDGET_EXHAUSTED log entry, no
stress test, no events), and this stop is not an error: the run still
finalizes by persisting status completed together with the computed confidence
score. -/
theorem loop_budget_exhaustion_completes (cfg : PercolatorConfig) (st : DBState)
    (id : String) (bp : Blueprint) (h : getBlueprint st id = some bp)
    (hb : bp.budget_tokens - bp.tokens_used < 100) :
    (∀ (maxIter : Nat) (u : Bool) (m : Int) (fuel it used : Nat) (st' : DBState)
        (bp' : Blueprint), getBlueprint st' id = some bp' →
        bp'.budget_tokens - bp'.tokens_used < 100 →
        loopGo id maxIter u m (fuel + 1) it used st' =
          ⟨.ok (), logDb st' id "BUDGET_EXHAUSTED"
              ("remaining=" ++ toString (bp'.budget_tokens - bp'.tokens_used)),
            [], it, used⟩) ∧
    (runPercolationLoop cfg st id).res = .ok () ∧
    (runPercolationLoop cfg st id).db.stressTests = st.stressTests ∧
    (∀ e ∈ (runPercolationLoop cfg st id).trace, e.type = "percolation_complete") ∧
    (∃ bp2, getBlueprint (runPercolationLoop cfg st id).db id = some bp2 ∧
      bp2.status = .completed ∧
      bp2.confidence_score = calculateConfidence st id) := by
  have hstep : ∀ (maxIter : Nat) (u : Bool) (m : Int) (fuel it used : Nat)
      (st' : DBState) (bp' : Blueprint), getBlueprint st' id = some bp' →
      bp'.budget_tokens - bp'.tokens_used < 100 →
      loopGo id maxIter u m (fuel + 1) it used st' =
        ⟨.ok (), logDb st' id "BUDGET_EXHAUSTED"
            ("remaining=" ++ toString (bp'.budget_tokens - bp'.tokens_used)),
          [], it, used⟩ := by
    intro maxIter u m fuel it used st' bp' h' hb'
    simp only [loopGo, h']
    rw [if_pos hb']
  have key : ∀ (mi : Nat) (u : Bool) (rq : Int) (s : DBState) (bp' : Blueprint),
      getBlueprint s id = some bp' → bp'.budget_tokens - bp'.tokens_used < 100 →
      ∃ s1, loopGo id mi u rq mi 0 0 s = ⟨.ok (), s1, [], 0, 0⟩ ∧
        s1.stressTests = s.stressTests ∧ s1.holes = s.holes ∧
        s1.optimizations = s.optimizations ∧ s1.blueprints = s.blueprints := by
    intro mi u rq s bp' h' hb'
    cases mi with
    | zero => exact ⟨s, rfl, rfl, rfl, rfl, rfl⟩
    | succ k => exact ⟨_, hstep _ _ _ k 0 0 s bp' h' hb', rfl, rfl, rfl, rfl⟩
  refine ⟨hstep, ?_⟩
  simp only [runPercolationLoop, h]
  obtain ⟨s1, he, hst1, hh1, ho1, hbl1⟩ :=
    key (depthConfigFor cfg bp.depth).stressTests
      ((depthConfigFor cfg bp.depth).researchQueries == -1)
      (depthConfigFor cfg bp.depth).researchQueries
      (logDb st id "PERCOLATION_LOOP_START"
        ("max_iterations=" ++ toString (depthConfigFor cfg bp.depth).stressTests ++
          " budget=" ++ toString bp.budget_tokens ++
          " depth=" ++ depthStr bp.depth))
      bp h hb
  rw [he]
  have hcc : calculateConfidence s1 id = calculateConfidence st id :=
    calculateConfidence_congr s1 st id hh1 hst1 ho1
  refine ⟨rfl, hst1, by simp, ?_⟩
  rw [show ∀ s' : DBState, getBlueprint
      (logDb (updateBlueprintStatus s' id BStatus.completed
        (some (calculateConfidence s' id))) id "PERCOLATION_COMPLETE"
        ("iterations=" ++ toString 0 ++ " research_queries=" ++ toString 0 ++
          " final_confidence=" ++ ratStr (calculateConfidence s' id))) id =
      getBlueprint (updateBlueprintStatus s' id BStatus.completed
        (some (calculateConfidence s' id))) id from fun _ => rfl,
    getBlueprint_updateStatus]
  have hgb : getBlueprint s1 id = some bp := by
    unfold getBlueprint
    rw [hbl1]
    exact h
  rw [hgb]
  exact ⟨_, rfl, rfl, hcc⟩

/-- Reading any blueprint id after `updateBlueprintContent`. -/
theorem getBlueprint_updateContent_any (st : DBState) (bid c : String) (t : Int)
    (j : String) :
    getBlueprint (updateBlueprintContent st bid c t) j =
      (getBlueprint st j).map fun b =>
        if b.id == bid then
          { b with current_content := c, tokens_used := b.tokens_used + t }
        else b := by
  unfold getBlueprint updateBlueprintContent
  exact find?_map_update _ _
    (fun b => by by_cases hb : b.id == bid <;> simp [hb]) st.blueprints

/-- Reading any blueprint id after `updateBlueprintStatus`. -/
theorem getBlueprint_updateStatus_any (st : DBState) (bid : String) (s : BStatus)
    (conf : Option ℚ) (j : String) :
    getBlueprint (updateBlueprintStatus st bid s conf) j =
      (getBlueprint st j).map fun b =>
        if b.id == bid then
          { b with
            status := s
            confidence_score := conf.getD b.confidence_score
            completed_at :=
              if s == .completed || s == .failed then some st.clock
              else b.completed_at }
        else b := by
  unfold getBlueprint updateBlueprintStatus
  exact find?_map_update _ _
    (fun b => by by_cases hb : b.id == bid <;> simp [hb]) st.blueprints

/-- Blueprint lookup depends only on the blueprints table. -/
theorem getBlueprint_congr (s1 s2 : DBState) (j : String)
    (h : s1.blueprints = s2.blueprints) : getBlueprint s1 j = getBlueprint s2 j := by
  unfold getBlueprint
  rw [h]

/-- A successful `applyPatch` never adds or removes blueprint rows. -/
theorem applyPatch_presence (st : DBState) (bid hid patch : String) (st' : DBState)
    (h : applyPatch st bid hid patch = .ok st') (j : String) :
    (getBlueprint st' j).isSome = (getBlueprint st j).isSome := by
  unfold applyPatch at h
  cases hgb : getBlueprint st bid <;> rw [hgb] at h <;> dsimp only [] at h
  · cases h
  · cases hgh : getHole st hid <;> rw [hgh] at h <;> dsimp only [] at h
    · cases h
    · rename_i bp hole
      by_cases hown : hole.blueprint_id ≠ bid
      · rw [if_pos hown] at h; cases h
      · rw [if_neg hown] at h
        simp only [Except.ok.injEq] at h
        subst h
        rw [getBlueprint_logDb, getBlueprint_updateHoleStatus,
          getBlueprint_updateContent_any]
        cases getBlueprint st j <;> rfl

/-- A successful `runTest` never touches the blueprints table. -/
theorem runTest_blueprints (st : DBState) (bid tt : String) (i : Nat)
    (st' : DBState) (r : StressTestRunResult)
    (h : runTest st bid tt i = .ok (st', r)) : st'.blueprints = st.blueprints := by
  unfold runTest at h
  cases hgb : getBlueprint st bid <;> rw [hgb] at h
  · cases h
  · simp only [Except.ok.injEq, Prod.mk.injEq] at h
    obtain ⟨h1, _⟩ := h
    subst h1
    rw [(createHoles_spec bid _ _ 0).2.2.2]
    rfl

/-- One `createHole`-and-collect step never touches the blueprints table. -/
theorem pushHole_blueprints (st : DBState) (acc : List FoundHole)
    (a b c : String) (sv : Severity) (l f : Option String) :
    (pushHole st acc a b c sv l f).1.blueprints = st.blueprints := rfl

/-- Folding blueprint-preserving steps preserves the blueprints table. -/
theorem foldl_push_blueprints {α : Type}
    (g : DBState × List FoundHole → α → DBState × List FoundHole)
    (hg : ∀ p a, (g p a).1.blueprints = p.1.blueprints) :
    ∀ (l : List α) (p : DBState × List FoundHole),
      (l.foldl g p).1.blueprints = p.1.blueprints := by
  intro l
  induction l with
  | nil => intro p; rfl
  | cons hd tl ih => intro p; rw [List.foldl_cons, ih (g p hd), hg]

/-- `shallowAnalysis` never touches the blueprints table. -/
theorem shallowAnalysis_blueprints (st : DBState) (content bid : String) :
    (shallowAnalysis st content bid).1.blueprints = st.blueprints := by
  unfold shallowAnalysis
  dsimp only []
  split
  · rw [pushHole_blueprints]
    apply foldl_push_blueprints
    intro p a
    rfl
  · apply foldl_push_blueprints
    intro p a
    rfl

/-- `moderateAnalysis` never touches the blueprints table. -/
theorem moderateAnalysis_blueprints (st : DBState) (content bid : String) :
    (moderateAnalysis st content bid).1.blueprints = st.blueprints := by
  unfold moderateAnalysis
  dsimp only []
  split_ifs <;> (repeat rw [pushHole_blueprints]) <;>
    (apply foldl_push_blueprints; intro p a; dsimp only []; split <;> rfl)

/-- `deepAnalysis` never touches the blueprints table. -/
theorem deepAnalysis_blueprints (st : DBState) (content bid : String) :
    (deepAnalysis st content bid).1.blueprints = st.blueprints := by
  unfold deepAnalysis
  dsimp only []
  repeat' split
  all_goals rfl

/-- A successful `analyze` never touches the blueprints table. -/
theorem analyze_blueprints (st : DBState) (bid : String) (d : ADepth)
    (st2 : DBState) (f : List FoundHole) (h : analyze st bid d = .ok (st2, f)) :
    st2.blueprints = st.blueprints := by
  unfold analyze at h
  cases hgb : getBlueprint st bid <;> rw [hgb] at h <;> dsimp only [] at h
  · cases h
  · rename_i bp
    cases d <;> simp only [Except.ok.injEq] at h <;>
      (have h1 := congrArg Prod.fst h) <;> (try dsimp only [] at h1) <;> rw [← h1]
    · exact shallowAnalysis_blueprints _ _ _
    · rw [moderateAnalysis_blueprints]
      exact shallowAnalysis_blueprints _ _ _
    · rw [deepAnalysis_blueprints, moderateAnalysis_blueprints]
      exact shallowAnalysis_blueprints _ _ _

/-- The hole-patching pass preserves blueprint presence. -/
theorem patchHoles_presence (bid : String) (u : Bool) (m : Int) :
    ∀ (hs : List Hole) (used : Nat) (st : DBState) (j : String),
      (getBlueprint (patchHoles bid u m hs used st).db j).isSome =
        (getBlueprint st j).isSome := by
  intro hs
  induction hs with
  | nil => intro used st j; rfl
  | cons hole rest ih =>
    intro used st j
    show (getBlueprint (patchHoles bid u m (hole :: rest) used st).db j).isSome = _
    unfold patchHoles
    split
    · cases hrf : researchForHole hole
      · dsimp only []
        exact ih used st j
      · rename_i imp
        dsimp only []
        cases hap : applyPatch st bid hole.id imp.patch
        · rfl
        · rename_i st1
          dsimp only []
          rw [ih _ st1 j, applyPatch_presence st bid hole.id imp.patch st1 hap j]
    · exact ih used st j

/-- The percolation loop preserves blueprint presence. -/
theorem loopGo_presence (bid : String) (mi : Nat) (u : Bool) (m : Int) :
    ∀ (fuel it used : Nat) (st : DBState) (j : String),
      (getBlueprint (loopGo bid mi u m fuel it used st).db j).isSome =
        (getBlueprint st j).isSome := by
  intro fuel
  induction fuel with
  | zero => intro it used st j; rfl
  | succ k ih =>
    intro it used st j
    show (getBlueprint (loopGo bid mi u m (k + 1) it used st).db j).isSome = _
    unfold loopGo
    cases hgb : getBlueprint st bid
    · rfl
    · simp only []
      split
      · rfl
      · cases hrt : runTest st bid (selectTestType (it + 1) mi)
          (calculateIntensity (it + 1) mi)
        · rfl
        · rename_i p
          obtain ⟨st1, tr⟩ := p
          have hrt1 : (getBlueprint st1 j).isSome = (getBlueprint st j).isSome := by
            rw [getBlueprint_congr st1 st j (runTest_blueprints _ _ _ _ _ _ hrt)]
          simp only []
          split
          · exact hrt1
          · rename_i st2 foundEvts hfind
            have hst2 : (getBlueprint st2 j).isSome = (getBlueprint st j).isSome := by
              split at hfind
              · simp only [Except.ok.injEq, Prod.mk.injEq] at hfind
                obtain ⟨h1, _⟩ := hfind
                subst h1
                exact hrt1
              · rename_i hnp
                cases han : analyze st1 bid (analysisDepthFor (it + 1) mi) <;>
                  rw [han] at hfind
                · cases hfind
                · rename_i q
                  obtain ⟨st2', f⟩ := q
                  simp only [Except.ok.injEq, Prod.mk.injEq] at hfind
                  obtain ⟨h1, _⟩ := hfind
                  subst h1
                  rw [getBlueprint_congr st2' st1 j
                    (analyze_blueprints _ _ _ _ _ han), hrt1]
            split
            · rw [patchHoles_presence, hst2]
            · rename_i hok
              split
              · cases hft : runTest (patchHoles bid u m _ used st2).db bid
                  "consistency" 10
                · simp only []
                  rw [patchHoles_presence, hst2]
                · rename_i q
                  obtain ⟨st4, ft⟩ := q
                  simp only []
                  split
                  · rw [getBlueprint_logDb,
                      getBlueprint_congr st4 _ j (runTest_blueprints _ _ _ _ _ _ hft),
                      patchHoles_presence, hst2]
                  · rw [ih, getBlueprint_congr st4 _ j
                      (runTest_blueprints _ _ _ _ _ _ hft),
                      patchHoles_presence, hst2]
              · rw [ih, patchHoles_presence, hst2]

/-- Mapping over an optional value does not change whether it is present. -/
theorem isSome_map_opt {α β : Type} (o : Option α) (f : α → β) :
    (o.map f).isSome = o.isSome := by
  cases o <;> rfl

/-- The full percolation loop (including finalization) preserves blueprint
presence. -/
theorem runLoop_presence (cfg : PercolatorConfig) (st : DBState) (bid j : String) :
    (getBlueprint (runPercolationLoop cfg st bid).db j).isSome =
      (getBlueprint st j).isSome := by
  unfold runPercolationLoop
  cases hgb : getBlueprint st bid
  · rfl
  · rename_i bp
    dsimp only []
    split
    · rw [loopGo_presence]
      rfl
    · rw [getBlueprint_logDb, getBlueprint_updateStatus_any, isSome_map_opt,
        loopGo_presence]
      rfl

/-- C6: for every `percolate` call that passes its preconditions, the blueprint
id is removed from the active set before returning — on the success path and on
the failure path alike — and if the loop throws an unrecovered error the
blueprint is transitioned to failed, a `percolation_failed` event carrying the
error message is emitted, and the same error is re-thrown to the caller. -/
theorem percolate_failure_and_cleanup (cfg : PercolatorConfig) (es : EngineState)
    (id : String) (bp : Blueprint)
    (h1 : es.active.contains id = false)
    (h2 : es.active.length < cfg.maxConcurrentPercolations)
    (h3 : getBlueprint es.db id = some bp)
    (h4 : bp.status = .pending) :
    (percolate cfg es id).2.1.active.contains id = false ∧
    (∀ msg, (runPercolationLoop cfg
        (updateBlueprintStatus es.db id .percolating none) id).res = .error msg →
      (percolate cfg es id).1 = .error msg ∧
      (∃ bp2, getBlueprint (percolate cfg es id).2.1.db id = some bp2 ∧
        bp2.status = .failed) ∧
      PEvent.mk "percolation_failed" id [("error", msg)] ∈ (percolate cfg es id).2.2) := by
  have hle : ¬ es.active.length ≥ cfg.maxConcurrentPercolations := not_le.mpr h2
  have hnp : ¬ bp.status ≠ BStatus.pending := by simp [h4]
  have herase : (id :: es.active).erase id = es.active := List.erase_cons_head _ _
  unfold percolate
  rw [h1, h3]
  simp only [Bool.false_eq_true, if_false, if_neg hle, if_neg hnp]
  split
  · -- loop succeeded
    rename_i u hres
    refine ⟨by rw [herase]; exact h1, ?_⟩
    intro msg hmsg
    rw [hmsg] at hres
    cases hres
  · -- loop errored
    rename_i e hres
    refine ⟨by rw [herase]; exact h1, ?_⟩
    intro msg hmsg
    rw [hmsg] at hres
    cases hres
    refine ⟨rfl, ?_, by simp⟩
    have hpres : (getBlueprint (runPercolationLoop cfg
        (updateBlueprintStatus es.db id .percolating none) id).db id).isSome = true := by
      rw [runLoop_presence, getBlueprint_updateStatus, h3]
      rfl
    obtain ⟨bp2, hbp2⟩ := Option.isSome_iff_exists.mp hpres
    rw [getBlueprint_updateStatus, hbp2]
    exact ⟨_, rfl, rfl⟩

/-- Every event the hole-patching pass emits is a `hole_patched` event. -/
theorem patchHoles_trace (bid : String) (u : Bool) (m : Int) :
    ∀ (hs : List Hole) (used : Nat) (st : DBState) (e : PEvent),
      e ∈ (patchHoles bid u m hs used st).trace → e.type = "hole_patched" := by
  intro hs
  induction hs with
  | nil => intro used st e he; cases he
  | cons hole rest ih =>
    intro used st e he
    unfold patchHoles at he
    split at he
    · cases hrf : researchForHole hole <;> rw [hrf] at he <;> dsimp only [] at he
      · exact ih used st e he
      · rename_i imp
        cases hap : applyPatch st bid hole.id imp.patch <;> rw [hap] at he <;>
          dsimp only [] at he
        · cases he
        · rename_i st1
          rcases List.mem_cons.mp he with rfl | he2
          · rfl
          · exact ih _ st1 e he2
    · exact ih used st e he

/-- Every event one pass of the loop emits is a stress-test, hole-found or
hole-patched event — there is no timeout event anywhere in the loop body. -/
theorem loopGo_trace (bid : String) (mi : Nat) (u : Bool) (m : Int) :
    ∀ (fuel it used : Nat) (st : DBState) (e : PEvent),
      e ∈ (loopGo bid mi u m fuel it used st).trace →
      e.type = "stress_test_running" ∨ e.type = "stress_test_complete" ∨
        e.type = "hole_found" ∨ e.type = "hole_patched" := by
  intro fuel
  induction fuel with
  | zero => intro it used st e he; cases he
  | succ k ih =>
    intro it used st e he
    unfold loopGo at he
    cases hgb : getBlueprint st bid <;> rw [hgb] at he <;> dsimp only [] at he
    · cases he
    · split at he
      · cases he
      · cases hrt : runTest st bid (selectTestType (it + 1) mi)
          (calculateIntensity (it + 1) mi) <;> rw [hrt] at he <;>
          dsimp only [] at he
        · rcases List.mem_singleton.mp he with rfl
          exact Or.inl rfl
        · rename_i p
          obtain ⟨st1, tr⟩ := p
          dsimp only [] at he
          split at he
          · rcases List.mem_cons.mp he with rfl | he2
            · exact Or.inl rfl
            · rcases List.mem_singleton.mp he2 with rfl
              exact Or.inr (Or.inl rfl)
          · rename_i st2 foundEvts hfind
            have hfound : ∀ e2 : PEvent, e2 ∈ foundEvts → e2.type = "hole_found" := by
              intro e2 he2
              split at hfind
              · simp only [Except.ok.injEq, Prod.mk.injEq] at hfind
                rw [← hfind.2] at he2
                cases he2
              · cases han : analyze st1 bid (analysisDepthFor (it + 1) mi) <;>
                  rw [han] at hfind
                · cases hfind
                · rename_i q
                  obtain ⟨st2', f⟩ := q
                  simp only [Except.ok.injEq, Prod.mk.injEq] at hfind
                  rw [← hfind.2] at he2
                  simp only [List.mem_map] at he2
                  obtain ⟨x, _, hx⟩ := he2
                  rw [← hx]
            split at he
            · -- patch pass threw: trace is head events plus patch events
              simp only [List.mem_cons, List.mem_append] at he
              rcases he with (rfl | rfl | hf) | hp
              · exact Or.inl rfl
              · exact Or.inr (Or.inl rfl)
              · exact Or.inr (Or.inr (Or.inl (hfound e hf)))
              · exact Or.inr (Or.inr (Or.inr (patchHoles_trace bid u m _ _ _ e hp)))
            · split at he
              · cases hft : runTest (patchHoles bid u m
                    (getHolesForBlueprint st2 bid (some .open_)) used st2).db bid
                    "consistency" 10 <;> rw [hft] at he <;> dsimp only [] at he
                · simp only [List.mem_cons, List.mem_append] at he
                  rcases he with (rfl | rfl | hf) | hp
                  · exact Or.inl rfl
                  · exact Or.inr (Or.inl rfl)
                  · exact Or.inr (Or.inr (Or.inl (hfound e hf)))
                  · exact Or.inr (Or.inr (Or.inr (patchHoles_trace bid u m _ _ _ e hp)))
                · rename_i q
                  obtain ⟨st4, ft⟩ := q
                  dsimp only [] at he
                  split at he
                  · simp only [List.mem_cons, List.mem_append] at he
                    rcases he with (rfl | rfl | hf) | hp
                    · exact Or.inl rfl
                    · exact Or.inr (Or.inl rfl)
                    · exact Or.inr (Or.inr (Or.inl (hfound e hf)))
                    · exact Or.inr (Or.inr (Or.inr
                        (patchHoles_trace bid u m _ _ _ e hp)))
                  · simp only [List.mem_cons, List.mem_append] at he
                    rcases he with ((rfl | rfl | hf) | hp) | hrec
                    · exact Or.inl rfl
                    · exact Or.inr (Or.inl rfl)
                    · exact Or.inr (Or.inr (Or.inl (hfound e hf)))
                    · exact Or.inr (Or.inr (Or.inr
                        (patchHoles_trace bid u m _ _ _ e hp)))
                    · exact ih _ _ _ e hrec
              · simp only [List.mem_cons, List.mem_append] at he
                rcases he with ((rfl | rfl | hf) | hp) | hrec
                · exact Or.inl rfl
                · exact Or.inr (Or.inl rfl)
                · exact Or.inr (Or.inr (Or.inl (hfound e hf)))
                · exact Or.inr (Or.inr (Or.inr
                    (patchHoles_trace bid u m _ _ _ e hp)))
                · exact ih _ _ _ e hrec

/-- Every event of a full percolation run is one of the seven lifecycle kinds
the engine can emit — never a timeout event. -/
theorem percolate_trace (cfg : PercolatorConfig) (es : EngineState) (id : String)
    (e : PEvent) (he : e ∈ (percolate cfg es id).2.2) :
    e.type = "percolation_started" ∨ e.type = "stress_test_running" ∨
      e.type = "stress_test_complete" ∨ e.type = "hole_found" ∨
      e.type = "hole_patched" ∨ e.type = "percolation_complete" ∨
      e.type = "percolation_failed" := by
  have hloop : ∀ (st : DBState) (e2 : PEvent),
      e2 ∈ (runPercolationLoop cfg st id).trace →
      e2.type = "stress_test_running" ∨ e2.type = "stress_test_complete" ∨
        e2.type = "hole_found" ∨ e2.type = "hole_patched" ∨
        e2.type = "percolation_complete" := by
    intro st e2 he2
    unfold runPercolationLoop at he2
    cases hgb : getBlueprint st id <;> rw [hgb] at he2 <;> dsimp only [] at he2
    · cases he2
    · split at he2
      · have h := loopGo_trace _ _ _ _ _ _ _ _ _ he2
        tauto
      · simp only [List.mem_append, List.mem_singleton] at he2
        rcases he2 with h2 | rfl
        · have h := loopGo_trace _ _ _ _ _ _ _ _ _ h2
          tauto
        · simp
  unfold percolate at he
  split at he
  · cases he
  · split at he
    · cases he
    · cases hgb : getBlueprint es.db id <;> rw [hgb] at he <;> dsimp only [] at he
      · cases he
      · split at he
        · cases he
        · split at he
          · rcases List.mem_cons.mp he with rfl | h2
            · exact Or.inl rfl
            · have h := hloop _ e h2
              tauto
          · rcases List.mem_cons.mp he with rfl | h2
            · exact Or.inl rfl
            · simp only [List.mem_append, List.mem_singleton] at h2
              rcases h2 with h2 | rfl
              · have h := hloop _ e h2
                tauto
              · simp

/-- C1: the engine has no timeout handling at all — the outcome of `percolate`
does not depend on the configured `timeoutMs` in any way, and no run ever emits
a `percolation_timeout` event (so no timeout ever stops the loop, is recorded,
or applies the 0.8 penalty to the confidence score). -/
theorem percolationLoop_has_no_timeout :
    ∀ (cfg : PercolatorConfig) (t : Int) (es : EngineState) (id : String),
      percolate { cfg with timeoutMs := t } es id = percolate cfg es id ∧
      ∀ e ∈ (percolate cfg es id).2.2, e.type ≠ "percolation_timeout" := by
  intro cfg t es id
  constructor
  · obtain ⟨q, sd, th, ex, dd, mc, tm⟩ := cfg
    rfl
  · intro e he
    rcases percolate_trace cfg es id e he with h | h | h | h | h | h | h <;>
      rw [h] <;> decide

/-- Blueprint for the C1 witness (budget below 100 so the run is short). -/
def wTimeoutBp : Blueprint :=
  { id := "b", original_content := "doc", current_content := "doc",
    status := .pending, depth := .quick, budget_tokens := 50, tokens_used := 0,
    confidence_score := 0, completed_at := none }

/-- Engine state for the C1 witness. -/
def wTimeoutEs : EngineState := ⟨⟨[wTimeoutBp], [], [], [], [], 0⟩, []⟩

/-- Witness for C1: a concrete full run (timeoutMs 1 versus the default) whose
started event is in the emitted trace, so the no-timeout theorem applies to it. -/
theorem percolationLoop_has_no_timeout_witness :
    (PEvent.mk "percolation_started" "b" [("depth", "quick"), ("budget", "50")]).type ≠
      "percolation_timeout" :=
  (percolationLoop_has_no_timeout defaultConfig 1 wTimeoutEs "b").2
    (PEvent.mk "percolation_started" "b" [("depth", "quick"), ("budget", "50")])
    (List.Mem.head _)

/-- Blueprint for the C6 witness. -/
def wPercBp : Blueprint :=
  { id := "b", original_content := "doc", current_content := "doc",
    status := .pending, depth := .quick, budget_tokens := 1000, tokens_used := 0,
    confidence_score := 0, completed_at := none }

/-- Engine state for the C6 witness: empty active set, one pending blueprint. -/
def wPercEs : EngineState := ⟨⟨[wPercBp], [], [], [], [], 0⟩, []⟩

/-- Witness for C6: the preconditions hold on a concrete engine state, so the
cleanup-and-failure-handling theorem applies there. -/
theorem percolate_failure_and_cleanup_witness :
    (percolate defaultConfig wPercEs "b").2.1.active.contains "b" = false ∧
    (∀ msg, (runPercolationLoop defaultConfig
        (updateBlueprintStatus wPercEs.db "b" .percolating none) "b").res = .error msg →
      (percolate defaultConfig wPercEs "b").1 = .error msg ∧
      (∃ bp2, getBlueprint (percolate defaultConfig wPercEs "b").2.1.db "b" = some bp2 ∧
        bp2.status = .failed) ∧
      PEvent.mk "percolation_failed" "b" [("error", msg)] ∈
        (percolate defaultConfig wPercEs "b").2.2) :=
  percolate_failure_and_cleanup defaultConfig wPercEs "b" wPercBp rfl
    (by decide) rfl rfl

/-- Blueprint with fewer than 100 remaining tokens for the C7 witness. -/
def wLowBp : Blueprint :=
  { id := "b", original_content := "doc", current_content := "doc",
    status := .percolating, depth := .quick, budget_tokens := 50, tokens_used := 0,
    confidence_score := 0, completed_at := none }

/-- Store for the C7 witness. -/
def wLowSt : DBState := ⟨[wLowBp], [], [], [], [], 0⟩

/-- Witness for C7: on a concrete store with 50 remaining tokens the loop stops
immediately, adds no stress test, and completes with the computed score. -/
theorem loop_budget_exhaustion_completes_witness :
    (runPercolationLoop defaultConfig wLowSt "b").res = .ok () ∧
    (runPercolationLoop defaultConfig wLowSt "b").db.stressTests =
      wLowSt.stressTests ∧
    (∃ bp2, getBlueprint (runPercolationLoop defaultConfig wLowSt "b").db "b" =
        some bp2 ∧ bp2.status = .completed ∧
        bp2.confidence_score = calculateConfidence wLowSt "b") :=
  have h := loop_budget_exhaustion_completes defaultConfig wLowSt "b" wLowBp rfl
    (by decide)
  ⟨h.2.1, h.2.2.1, h.2.2.2.2⟩

/-- Witness for C10 at the concrete unknown category "fuzz". -/
theorem runTest_unknown_category_passes_witness :
    runTest wUnknownSt "b" "fuzz" 7 =
      .ok ({ wUnknownSt with
              stressTests :=
                ⟨freshId wUnknownSt, "b", "fuzz", 7, true, [], 0, wUnknownSt.clock⟩ ::
                  wUnknownSt.stressTests
              clock := wUnknownSt.clock + 1 },
        ⟨freshId wUnknownSt, true, [], 0, 0⟩) :=
  runTest_unknown_category_passes wUnknownSt "b" "fuzz" 7 wUnknownBp rfl (by decide)

end Percolation
